import Mathlib

/-!
Verification of the news ingestion, caching and broadcast core of the
financial-agent backend.  TypeScript services are shallowly embedded as
executable Lean definitions: JS numbers appear as exact rationals, `Date`
values as natural-number timestamps (milliseconds), fallible external calls
as `Except`/`Option` inputs, and the Prisma tables as association lists.
-/

namespace FinAgent

/-- Asset categories from the Prisma `AssetType` enum. -/
inductive AssetType
  | CRYPTO
  | METAL
deriving DecidableEq, Repr

/-- Printable name of an asset category, as interpolated into cache keys. -/
def assetTypeName : AssetType → String
  | .CRYPTO => "CRYPTO"
  | .METAL => "METAL"

/-- Per-class scores attached to a sentiment result (`details`). -/
structure SentimentDetails where
  positive : ℚ
  negative : ℚ
  neutral : ℚ
deriving DecidableEq, Repr

/-- The `SentimentResult` interface of sentiment.service.ts. -/
structure SentimentResult where
  score : ℚ
  label : String
  confidence : ℚ
  details : Option SentimentDetails := none
deriving DecidableEq, Repr

/-- The `NewsArticle` interface of news.service.ts. -/
structure NewsArticle where
  id : Option String := none
  title : String
  description : String
  content : Option String := none
  source : String
  author : Option String := none
  publishedAt : Nat
  url : String
  imageUrl : Option String := none
  relatedAssets : List String
  assetType : Option AssetType := none
  sentiment : SentimentResult
  relevanceScore : ℚ
deriving DecidableEq, Repr

/-- Containment of one character list inside another, checked at every
suffix of the haystack. -/
def charsInclude (needle : List Char) : List Char → Bool
  | [] => needle.isEmpty
  | c :: rest => needle.isPrefixOf (c :: rest) || charsInclude needle rest

/-- JS `String.prototype.includes`: substring containment test. -/
def jsIncludes (hay needle : String) : Bool :=
  charsInclude needle.data hay.data

/-- JS `String.prototype.toLowerCase`, modelled character-wise (basic
latin letters, like `Char.toLower`). -/
def jsToLower (s : String) : String :=
  ⟨s.data.map Char.toLower⟩

/-- JS `String.prototype.trim`: strip whitespace from both ends. -/
def jsTrim (s : String) : String :=
  ⟨((s.data.dropWhile Char.isWhitespace).reverse.dropWhile Char.isWhitespace).reverse⟩

/-- The fixed keyword vocabulary used by `calculateRelevance`. -/
def relevanceKeywords : List String :=
  ["price", "market", "trading", "investment", "analysis", "forecast"]

/-- The `calculateRelevance` method of news.service.ts in exact rational
arithmetic: 0.5 when the asset name occurs case-insensitively in
title+description, plus 0.1 for each keyword of the fixed vocabulary
occurring in the text, capped at 1.  This is the idealized (real-number)
reference; `calculateRelevanceFP` below gives the IEEE-754 binary64
semantics of the same accumulation. -/
def calculateRelevance (title description asset : String) : ℚ :=
  let text := jsToLower (title ++ " " ++ description)
  let assetLower := jsToLower asset
  let score : ℚ := if jsIncludes text assetLower then 0 + 1/2 else 0
  let score := relevanceKeywords.foldl
    (fun s keyword => if jsIncludes text keyword then s + 1/10 else s) score
  min score 1

/-- Powers of two as rationals, covering negative exponents. -/
def pow2Q (g : Int) : ℚ :=
  if 0 ≤ g then ((2 ^ g.toNat : Nat) : ℚ) else 1 / ((2 ^ (-g).toNat : Nat) : ℚ)

/-- Floor of a nonnegative rational. -/
def ratFloorNonneg (q : ℚ) : Int := q.num / (q.den : Int)

/-- Binary normalization: the exponent `e` with `2^e ≤ x < 2^(e+1)` for a
positive `x`, found by scaling; the fuel comfortably covers the binary64
range. -/
def normExp (fuel : Nat) (x : ℚ) (e : Int) : Int :=
  match fuel with
  | 0 => e
  | fuel + 1 =>
    if x < 1 then normExp fuel (2 * x) (e - 1)
    else if 2 ≤ x then normExp fuel (x / 2) (e + 1)
    else e

/-- Rounding of a positive rational onto the IEEE-754 binary64 grid of its
binade (spacing `2^(e-52)`), ties to even. -/
def roundPos (x : ℚ) : ℚ :=
  let e := normExp 1100 x 0
  let g := e - 52
  let y := x / pow2Q g
  let n0 := ratFloorNonneg y
  let frac := y - (n0 : ℚ)
  let n : Int :=
    if frac < 1/2 then n0
    else if (1 : ℚ)/2 < frac then n0 + 1
    else if n0 % 2 = 0 then n0 else n0 + 1
  (n : ℚ) * pow2Q g

/-- IEEE-754 binary64 round-to-nearest-even of an exact rational value.
Overflow and gradual underflow lie outside the range this program touches
and are not modelled. -/
def roundDouble (x : ℚ) : ℚ :=
  if x = 0 then 0
  else if x < 0 then -roundPos (-x) else roundPos x

/-- JS `+` on numbers: the exact sum followed by binary64 rounding. -/
def fladd (a b : ℚ) : ℚ := roundDouble (a + b)

/-- The `calculateRelevance` accumulation under IEEE-754 binary64
semantics: the literals `0.5` and `0.1` denote their nearest doubles and
every `+=` rounds; `Math.min` compares exactly and returns one argument. -/
def calculateRelevanceFP (title description asset : String) : ℚ :=
  let text := jsToLower (title ++ " " ++ description)
  let assetLower := jsToLower asset
  let score : ℚ :=
    if jsIncludes text assetLower then fladd 0 (roundDouble (1/2)) else 0
  let score := relevanceKeywords.foldl
    (fun s keyword => if jsIncludes text keyword then fladd s (roundDouble (1/10)) else s)
    score
  min score 1

unseal Rat.add Rat.mul Rat.inv Rat.sub in
/-- The binary64 value of the literal `0.1`. -/
theorem roundDouble_tenth : roundDouble (1/10) = 3602879701896397 / 2 ^ 55 := by
  decide

unseal Rat.add Rat.mul Rat.inv Rat.sub in
/-- The binary64 value of the literal `0.5` is exact. -/
theorem roundDouble_half : roundDouble (1/2) = 1/2 := by
  decide

/-- The loop of `deduplicateNews`, carrying the `seen` set of URLs. -/
def deduplicateNewsAux (seen : List String) : List NewsArticle → List NewsArticle
  | [] => []
  | article :: rest =>
    if seen.contains article.url then
      deduplicateNewsAux seen rest
    else
      article :: deduplicateNewsAux (article.url :: seen) rest

/-- The `deduplicateNews` method of news.service.ts: keep the first
occurrence of each URL, in input order. -/
def deduplicateNews (articles : List NewsArticle) : List NewsArticle :=
  deduplicateNewsAux [] articles

/-- A row of the Prisma `news` table as written by `storeNews`.  The
database-generated row `id` is modelled as an optional field that a fresh
`create` leaves empty; no claim depends on its value. -/
structure StoredNews where
  id : Option String := none
  title : String
  description : String
  content : Option String := none
  source : String
  author : Option String := none
  publishedAt : Nat
  url : String
  imageUrl : Option String := none
  relatedAssets : List String
  assetType : Option AssetType := none
  sentimentScore : ℚ
  sentimentLabel : String
  relevanceScore : ℚ
deriving DecidableEq, Repr

/-- The persistent news store: the rows of the `news` table. -/
abbrev NewsStore := List StoredNews

/-- Generic embedding of a Prisma `upsert` on a unique key: when some row
matches the key predicate, apply the update to every matching row,
otherwise append the freshly created row. -/
def rowUpsert {α : Type} (l : List α) (isKey : α → Bool) (update : α → α)
    (create : α) : List α :=
  if l.any isKey then l.map (fun r => if isKey r then update r else r)
  else l ++ [create]

/-- `prisma.news.findUnique` on the unique `url` column. -/
def findUniqueNews (store : NewsStore) (url : String) : Option StoredNews :=
  store.find? (fun row => row.url == url)

/-- The `create` record of the `prisma.news.upsert` call in `storeNews`. -/
def createRow (a : NewsArticle) : StoredNews :=
  { title := a.title, description := a.description, content := a.content,
    source := a.source, author := a.author, publishedAt := a.publishedAt,
    url := a.url, imageUrl := a.imageUrl, relatedAssets := a.relatedAssets,
    assetType := a.assetType, sentimentScore := a.sentiment.score,
    sentimentLabel := a.sentiment.label, relevanceScore := a.relevanceScore }

/-- The `update` record of the upsert applied to an existing row `r`:
every canonical field is refreshed; the row id and the key URL are kept. -/
def updateRow (a : NewsArticle) (r : StoredNews) : StoredNews :=
  { id := r.id, title := a.title, description := a.description,
    content := a.content, source := a.source, author := a.author,
    publishedAt := a.publishedAt, url := r.url, imageUrl := a.imageUrl,
    relatedAssets := a.relatedAssets, assetType := a.assetType,
    sentimentScore := a.sentiment.score, sentimentLabel := a.sentiment.label,
    relevanceScore := a.relevanceScore }

/-- The `prisma.news.upsert` call of `storeNews`, keyed by `a.url`. -/
def upsertNews (store : NewsStore) (a : NewsArticle) : NewsStore :=
  rowUpsert store (fun r => r.url == a.url) (updateRow a) (createRow a)

/-- Does the store already hold a row with this URL? -/
def hasUrl (store : NewsStore) (url : String) : Bool :=
  (findUniqueNews store url).isSome

/-- The `storeNews` method of news.service.ts: for each article check
existence by URL, upsert the canonical fields regardless, and return (with
the updated store) exactly the articles whose URL was absent at the
per-article check. -/
def storeNews (store : NewsStore) : List NewsArticle → NewsStore × List NewsArticle
  | [] => (store, [])
  | a :: rest =>
    let isNew := (findUniqueNews store a.url).isNone
    let store1 := upsertNews store a
    let result := storeNews store1 rest
    (result.1, if isNew then a :: result.2 else result.2)

/-- The stored row `r` carries exactly the canonical fields of article `a`. -/
def rowMatches (r : StoredNews) (a : NewsArticle) : Prop :=
  r.title = a.title ∧ r.description = a.description ∧ r.content = a.content ∧
  r.source = a.source ∧ r.author = a.author ∧ r.publishedAt = a.publishedAt ∧
  r.url = a.url ∧ r.imageUrl = a.imageUrl ∧ r.relatedAssets = a.relatedAssets ∧
  r.assetType = a.assetType ∧ r.sentimentScore = a.sentiment.score ∧
  r.sentimentLabel = a.sentiment.label ∧ r.relevanceScore = a.relevanceScore

/-- An entry of the in-process NodeCache tier: the stored value and its
absolute expiry in milliseconds. -/
structure MemEntry (V : Type) where
  value : V
  expiresAt : Nat
deriving DecidableEq, Repr

/-- A row of the durable `analysisCache` table.  Serialization is modelled
as the identity, so `data` holds the value itself. -/
structure DbCacheEntry (V : Type) where
  cacheKey : String
  dataType : String
  assetSymbol : Option String
  data : V
  expiresAt : Nat
deriving DecidableEq, Repr

/-- The two cache tiers of `CacheService`; the current time is passed to
each operation explicitly, in milliseconds. -/
structure CacheState (V : Type) where
  mem : List (String × MemEntry V)
  db : List (DbCacheEntry V)
deriving DecidableEq, Repr

/-- A cache with both tiers empty. -/
def emptyCacheState (V : Type) : CacheState V := ⟨[], []⟩

/-- The default `stdTTL` in seconds, `config.cache.ttl` (default 300). -/
def defaultCacheTtl : Nat := 300

/-- NodeCache `set`: overwrite the entry for the key, expiring `ttl`
seconds from now. -/
def memSet {V : Type} (mem : List (String × MemEntry V)) (now : Nat)
    (key : String) (v : V) (ttl : Nat) : List (String × MemEntry V) :=
  rowUpsert mem (fun p => p.1 == key)
    (fun _ => (key, ⟨v, now + ttl * 1000⟩)) (key, ⟨v, now + ttl * 1000⟩)

/-- NodeCache `get`: a stored entry is returned while `now` has not passed
its expiry (node-cache treats an entry as live while `t < Date.now()` is
false, i.e. while `now ≤ t`). -/
def memGet {V : Type} (mem : List (String × MemEntry V)) (now : Nat)
    (key : String) : Option V :=
  match mem.find? (fun p => p.1 == key) with
  | some p => if now ≤ p.2.expiresAt then some p.2.value else none
  | none => none

/-- `prisma.analysisCache.findUnique` on the unique `cacheKey` column. -/
def dbFindUnique {V : Type} (db : List (DbCacheEntry V)) (key : String) :
    Option (DbCacheEntry V) :=
  db.find? (fun e => e.cacheKey == key)

/-- Split a character list at a separator character. -/
def splitChars (sep : Char) : List Char → List (List Char)
  | [] => [[]]
  | c :: rest =>
    let r := splitChars sep rest
    if c == sep then [] :: r
    else
      match r with
      | [] => [[c]]
      | h :: t => (c :: h) :: t

/-- JS `key.split(':')`, used to derive cache-row metadata from the key. -/
def jsSplitColon (s : String) : List String :=
  (splitChars ':' s.data).map (fun cs => String.mk cs)

/-- The `extractDataType` helper: first `:`-separated component of the key,
or `unknown` when that component is empty (JS falsiness of `parts[0]`). -/
def extractDataType (key : String) : String :=
  match jsSplitColon key with
  | [] => "unknown"
  | p :: _ => if p = "" then "unknown" else p

/-- The `extractAssetSymbol` helper: second `:`-separated component of the
key, when present. -/
def extractAssetSymbol (key : String) : Option String :=
  (jsSplitColon key)[1]?

/-- `prisma.analysisCache.upsert`: refresh `data` and `expiresAt` of the
matching row, or create a full new row. -/
def dbUpsert {V : Type} (db : List (DbCacheEntry V)) (key : String) (v : V)
    (expiresAt : Nat) : List (DbCacheEntry V) :=
  rowUpsert db (fun e => e.cacheKey == key)
    (fun e => { e with data := v, expiresAt := expiresAt })
    { cacheKey := key, dataType := extractDataType key,
      assetSymbol := extractAssetSymbol key, data := v, expiresAt := expiresAt }

/-- `CacheService.get`: fast tier first; on miss, an unexpired durable row
is deserialized, written back into the fast tier with the DEFAULT TTL
(the `this.cache.set(key, data)` call passes no TTL), and returned. -/
def cacheGet {V : Type} (st : CacheState V) (now : Nat) (key : String) :
    Option V × CacheState V :=
  match memGet st.mem now key with
  | some v => (some v, st)
  | none =>
    match dbFindUnique st.db key with
    | some e =>
      if now < e.expiresAt then
        (some e.data, { st with mem := memSet st.mem now key e.data defaultCacheTtl })
      else (none, st)
    | none => (none, st)

/-- Effective TTL of a `set` call: JS `ttl || config.cache.ttl`, so a zero
TTL falls back to the default. -/
def actualTtl (ttl : Nat) : Nat :=
  if ttl == 0 then defaultCacheTtl else ttl

/-- `CacheService.set`: write the fast tier with the effective TTL and
upsert the durable row with the absolute expiry `now + ttl * 1000`. -/
def cacheSet {V : Type} (st : CacheState V) (now : Nat) (key : String)
    (v : V) (ttl : Nat) : CacheState V :=
  { mem := memSet st.mem now key v (actualTtl ttl),
    db := dbUpsert st.db key v (now + actualTtl ttl * 1000) }

/-- Loss of one fast-tier entry with the durable tier intact: NodeCache
eviction of the key or a process restart, the simulated eviction of the
spec's cache round-trip property. -/
def evictMem {V : Type} (st : CacheState V) (key : String) : CacheState V :=
  { st with mem := st.mem.filter (fun p => p.1 != key) }

/-- JS `x || undefined` on an optional string: null and the empty string
are both falsy and become undefined. -/
def jsOrUndefined (s : Option String) : Option String :=
  match s with
  | none => none
  | some str => if str = "" then none else some str

/-- The envelopes sent over the news WebSocket, tagged as in the source
(`connection`, `initial_news`, `news_update`, `pong`, `error`). -/
inductive WsMessage
  | connectionAck (message : String) (timestamp : Nat)
  | initialNews (message : String) (count : Nat) (data : List NewsArticle) (timestamp : Nat)
  | newsUpdate (count : Nat) (data : List NewsArticle) (timestamp : Nat)
  | pong (timestamp : Nat)
  | errorMsg (message : String) (timestamp : Nat)
deriving DecidableEq, Repr

/-- Recognizer for the initial-snapshot envelope. -/
def isInitialNews : WsMessage → Bool
  | .initialNews _ _ _ _ => true
  | _ => false

/-- The row-to-article conversion performed when building the initial
snapshot (`sendAllNewsToClient`, lines 365-383). -/
def storedToArticle (r : StoredNews) : NewsArticle :=
  { id := r.id, title := r.title, description := r.description,
    content := jsOrUndefined r.content, source := r.source,
    author := jsOrUndefined r.author, publishedAt := r.publishedAt,
    url := r.url, imageUrl := jsOrUndefined r.imageUrl,
    relatedAssets := r.relatedAssets, assetType := r.assetType,
    sentiment := { score := r.sentimentScore, label := r.sentimentLabel,
                   confidence := |r.sentimentScore| },
    relevanceScore := r.relevanceScore }

/-- Comparator of the `orderBy publishedAt desc` clause. -/
def newsDescBy (a b : StoredNews) : Bool :=
  decide (b.publishedAt ≤ a.publishedAt)

/-- `prisma.news.findMany` with `orderBy publishedAt desc` and `take`:
rows sorted most recent first, truncated to the limit. -/
def findManyRecent (store : NewsStore) (limit : Nat) : List StoredNews :=
  (store.mergeSort newsDescBy).take limit

/-- The envelope built by `sendAllNewsToClient` for a new client, given the
outcome of the store read; the `Except` error case models the caught
`findMany` failure, answered with an error envelope. -/
def sendAllNewsToClient (dbRead : Except Unit NewsStore) (now : Nat) : WsMessage :=
  match dbRead with
  | .error _ => .errorMsg "Failed to fetch existing news" now
  | .ok store =>
    let allNews := findManyRecent store 100
    if allNews.length == 0 then
      .initialNews "No news available yet" 0 [] now
    else
      .initialNews "All existing news from database" allNews.length
        (allNews.map storedToArticle) now

/-- A subscriber connection: an identity plus whether its readyState is
OPEN at the moment a send is attempted. -/
structure Conn where
  id : Nat
  isOpen : Bool
deriving DecidableEq, Repr

/-- `sendToClient`: deliver the message only when the connection is open. -/
def sendToClient (ws : Conn) (msg : WsMessage) : List (Nat × WsMessage) :=
  if ws.isOpen then [(ws.id, msg)] else []

/-- The `connection` handler installed by `WebSocketService.initialize`:
register the client in the set, send the connection ack, then the initial
snapshot (or the error envelope when the store read failed).  Returns the
new registry and the deliveries made to this client. -/
def handleConnection (clients : List Conn) (ws : Conn)
    (dbRead : Except Unit NewsStore) (now : Nat) :
    List Conn × List (Nat × WsMessage) :=
  let clients1 := if clients.contains ws then clients else clients ++ [ws]
  (clients1,
    sendToClient ws (.connectionAck "Connected to news WebSocket" now)
      ++ sendToClient ws (sendAllNewsToClient dbRead now))

/-- `WebSocketService.broadcast`: iterate the registry and deliver to every
connection whose readyState is OPEN at its own send. -/
def broadcast (clients : List Conn) (msg : WsMessage) : List (Nat × WsMessage) :=
  clients.filterMap (fun c => if c.isOpen then some (c.id, msg) else none)

/-- `WebSocketService.broadcastNews`: nothing is sent when the server is
down or the list is empty; otherwise one `news_update` envelope carrying
the count and the full payload goes to every open connection. -/
def broadcastNews (wssUp : Bool) (clients : List Conn)
    (news : List NewsArticle) (now : Nat) : List (Nat × WsMessage) :=
  if !wssUp || news.length == 0 then []
  else broadcast clients (.newsUpdate news.length news now)

/-- Primary sentiment model name used by `analyzeSentiment`. -/
def primaryModel : String := "ProsusAI/finbert"

/-- Backup sentiment model name used by `analyzeSentimentWithBackup`. -/
def backupModel : String := "cardiffnlp/twitter-roberta-base-sentiment-latest"

/-- One classification row returned by the HuggingFace text-classification
call. -/
structure HFClassification where
  label : String
  score : ℚ
deriving DecidableEq, Repr

/-- Outcome oracle for a HuggingFace call: model name and (truncated)
input text to either a fault or the classification rows. -/
abbrev HFOracle := String → String → Except Unit (List HFClassification)

/-- The `createNeutralSentiment` helper of sentiment.service.ts. -/
def createNeutralSentiment : SentimentResult :=
  { score := 0, label := "neutral", confidence := 33/100,
    details := some ⟨33/100, 33/100, 34/100⟩ }

/-- The `forEach` of `processSentimentResult` that fills the details
record, later items overwriting earlier ones per class. -/
def classifyDetail (acc : SentimentDetails) (item : HFClassification) :
    SentimentDetails :=
  if jsIncludes (jsToLower item.label) "positive" then { acc with positive := item.score }
  else if jsIncludes (jsToLower item.label) "negative" then { acc with negative := item.score }
  else { acc with neutral := item.score }

/-- The `processSentimentResult` helper: sort the rows by score descending,
read the top label, and derive score/label/confidence/details.  An empty
row list makes the JS code dereference `undefined` and throw inside the
enclosing `try`; that is modelled as `none`. -/
def processSentimentResult (result : List HFClassification) :
    Option SentimentResult :=
  let sortedResults := result.mergeSort (fun a b => decide (b.score ≤ a.score))
  match sortedResults.head? with
  | none => none
  | some topResult =>
    let pair : ℚ × String :=
      if jsIncludes (jsToLower topResult.label) "positive" then (topResult.score, "positive")
      else if jsIncludes (jsToLower topResult.label) "negative" then (-topResult.score, "negative")
      else (0, "neutral")
    some { score := pair.1, label := pair.2, confidence := topResult.score,
           details := some (sortedResults.foldl classifyDetail ⟨0, 0, 0⟩) }

/-- The `analyzeSentimentWithBackup` fallback: one attempt against the
backup model; any fault degrades to the neutral sentiment. -/
def analyzeSentimentWithBackup (oracle : HFOracle) (text : String) :
    SentimentResult :=
  match oracle backupModel (text.take 512) with
  | .error _ => createNeutralSentiment
  | .ok r =>
    match processSentimentResult r with
    | some s => s
    | none => createNeutralSentiment

/-- The `analyzeSentiment` method: neutral for blank text, the cached
result when present, else the primary model with the 512-character
truncation; a primary fault (or a crash processing its response) takes the
single backup attempt.  Besides the result it returns the list of model
calls issued, in order.  The write of the fresh result into the sentiment
cache is not modelled; `cached` is the read-only lookup. -/
def analyzeSentiment (oracle : HFOracle)
    (cached : String → Option SentimentResult) (text : String) :
    SentimentResult × List String :=
  if jsTrim text = "" then (createNeutralSentiment, [])
  else
    match cached text with
    | some s => (s, [])
    | none =>
      match oracle primaryModel (text.take 512) with
      | .ok r =>
        match processSentimentResult r with
        | some s => (s, [primaryModel])
        | none => (analyzeSentimentWithBackup oracle text, [primaryModel, backupModel])
      | .error _ => (analyzeSentimentWithBackup oracle text, [primaryModel, backupModel])

/-- The `analyzeBatchSentiment` method: texts processed in chunks of 5
(the inter-chunk delay has no observable effect on the results). -/
def analyzeBatchSentiment (oracle : HFOracle)
    (cached : String → Option SentimentResult) :
    List String → List SentimentResult
  | [] => []
  | t :: ts =>
    ((t :: ts).take 5).map (fun text => (analyzeSentiment oracle cached text).1)
      ++ analyzeBatchSentiment oracle cached ((t :: ts).drop 5)
termination_by l => l.length
decreasing_by simp [List.length_drop]; omega

/-- Which news-provider API keys are configured (JS truthiness of the
`config.apiKeys` strings). -/
structure ApiKeysConfig where
  newsApi : Bool
  gnews : Bool
  currentsApi : Bool
deriving DecidableEq, Repr

/-- The three news providers of the fallback chain. -/
inductive NewsProvider
  | newsApi
  | gnews
  | currentsApi
deriving DecidableEq, Repr

/-- A raw provider article before normalization; optional description
models the `article.description || ''` guard. -/
structure RawArticle where
  title : String
  description : Option String := none
  content : Option String := none
  sourceName : String
  author : Option String := none
  publishedAt : Nat
  url : String
  imageUrl : Option String := none
deriving DecidableEq, Repr

/-- Outcome oracle for one provider HTTP call, per provider and query:
either a fault (network, 429, 401, ...) or the raw article list. -/
abbrev ProviderOracle := NewsProvider → String → Except Unit (List RawArticle)

/-- The `buildSearchQuery` helper of news.service.ts. -/
def buildSearchQuery (asset : String) (assetType : AssetType) : String :=
  match assetType with
  | .CRYPTO => asset ++ " cryptocurrency OR " ++ asset ++ " crypto OR " ++ asset ++ " bitcoin"
  | .METAL => asset ++ " price OR " ++ asset ++ " market OR " ++ asset ++ " trading"

/-- The article mapping of `fetchFromNewsApi`; a caught request fault
yields the empty list. -/
def fetchFromNewsApi (response : Except Unit (List RawArticle))
    (asset : String) (assetType : AssetType) : List NewsArticle :=
  match response with
  | .error _ => []
  | .ok raws => raws.map (fun a =>
      { title := a.title, description := a.description.getD "",
        content := a.content, source := a.sourceName, author := a.author,
        publishedAt := a.publishedAt, url := a.url, imageUrl := a.imageUrl,
        relatedAssets := [asset], assetType := some assetType,
        sentiment := { score := 0, label := "neutral", confidence := 0 },
        relevanceScore := calculateRelevance a.title (a.description.getD "") asset })

/-- The article mapping of `fetchFromGNews` (author is taken from the
source name); a caught request fault yields the empty list. -/
def fetchFromGNews (response : Except Unit (List RawArticle))
    (asset : String) (assetType : AssetType) : List NewsArticle :=
  match response with
  | .error _ => []
  | .ok raws => raws.map (fun a =>
      { title := a.title, description := a.description.getD "",
        content := a.content, source := a.sourceName, author := some a.sourceName,
        publishedAt := a.publishedAt, url := a.url, imageUrl := a.imageUrl,
        relatedAssets := [asset], assetType := some assetType,
        sentiment := { score := 0, label := "neutral", confidence := 0 },
        relevanceScore := calculateRelevance a.title (a.description.getD "") asset })

/-- The article mapping of `fetchFromCurrentsApi` (content mirrors the
description and source mirrors the author); a caught request fault yields
the empty list. -/
def fetchFromCurrentsApi (response : Except Unit (List RawArticle))
    (asset : String) (assetType : AssetType) : List NewsArticle :=
  match response with
  | .error _ => []
  | .ok raws => raws.map (fun a =>
      { title := a.title, description := a.description.getD "",
        content := some (a.description.getD ""), source := a.author.getD "",
        author := a.author, publishedAt := a.publishedAt, url := a.url,
        imageUrl := a.imageUrl, relatedAssets := [asset],
        assetType := some assetType,
        sentiment := { score := 0, label := "neutral", confidence := 0 },
        relevanceScore := calculateRelevance a.title (a.description.getD "") asset })

/-- The `enrichWithSentiment` method: batch-classify `title. description`
texts and zip the sentiments back onto the articles. -/
def enrichWithSentiment (oracle : HFOracle)
    (sentCache : String → Option SentimentResult)
    (articles : List NewsArticle) : List NewsArticle :=
  let texts := articles.map (fun a => a.title ++ ". " ++ a.description)
  let sentiments := analyzeBatchSentiment oracle sentCache texts
  (articles.zip sentiments).map (fun p => { p.1 with sentiment := p.2 })

/-- The `fetchNewsForAsset` method: a cache hit skips providers entirely;
on a miss the first configured provider of the fixed priority chain is
called (never more than one), any fault leaving the empty list, and a
non-empty batch is enriched with sentiment.  Besides the articles it
returns the list of providers actually called.  The trailing 5-minute
cache write is not modelled; `cacheLookup` is the read-only lookup. -/
def fetchNewsForAsset (keys : ApiKeysConfig) (oracle : ProviderOracle)
    (sentOracle : HFOracle) (sentCache : String → Option SentimentResult)
    (cacheLookup : String → Option (List NewsArticle))
    (asset : String) (assetType : AssetType) :
    List NewsArticle × List NewsProvider :=
  let cacheKey := "news:" ++ assetTypeName assetType ++ ":" ++ asset
  match cacheLookup cacheKey with
  | some cached => (cached, [])
  | none =>
    let searchQuery := buildSearchQuery asset assetType
    let fetched : List NewsArticle × List NewsProvider :=
      if keys.newsApi then
        (fetchFromNewsApi (oracle .newsApi searchQuery) asset assetType, [.newsApi])
      else if keys.gnews then
        (fetchFromGNews (oracle .gnews searchQuery) asset assetType, [.gnews])
      else if keys.currentsApi then
        (fetchFromCurrentsApi (oracle .currentsApi searchQuery) asset assetType, [.currentsApi])
      else ([], [])
    let articles :=
      if fetched.1.length == 0 then fetched.1
      else enrichWithSentiment sentOracle sentCache fetched.1
    (articles, fetched.2)

/-- The per-asset accumulation loop of `fetchNewsForAssets`. -/
def fetchLoop (keys : ApiKeysConfig) (oracle : ProviderOracle)
    (sentOracle : HFOracle) (sentCache : String → Option SentimentResult)
    (cacheLookup : String → Option (List NewsArticle))
    (assetType : AssetType) :
    List String → List NewsArticle × List NewsProvider
  | [] => ([], [])
  | asset :: rest =>
    let here := fetchNewsForAsset keys oracle sentOracle sentCache cacheLookup asset assetType
    let further := fetchLoop keys oracle sentOracle sentCache cacheLookup assetType rest
    (here.1 ++ further.1, here.2 ++ further.2)

/-- The `fetchNewsForAssets` method: accumulate all assets' articles,
deduplicate by URL, store, and return the new store, the genuinely new
articles, and the providers called. -/
def fetchNewsForAssets (keys : ApiKeysConfig) (oracle : ProviderOracle)
    (sentOracle : HFOracle) (sentCache : String → Option SentimentResult)
    (cacheLookup : String → Option (List NewsArticle))
    (store : NewsStore) (assets : List String) (assetType : AssetType) :
    NewsStore × List NewsArticle × List NewsProvider :=
  let fetched := fetchLoop keys oracle sentOracle sentCache cacheLookup assetType assets
  let uniqueNews := deduplicateNews fetched.1
  let stored := storeNews store uniqueNews
  (stored.1, stored.2, fetched.2)

/-! Lemmas about `deduplicateNewsAux`. -/

theorem deduplicateNewsAux_sublist (seen : List String) (l : List NewsArticle) :
    (deduplicateNewsAux seen l).Sublist l := by
  induction l generalizing seen with
  | nil => simp [deduplicateNewsAux]
  | cons art rest ih =>
    rw [deduplicateNewsAux]
    by_cases hc : seen.contains art.url = true
    · rw [if_pos hc]
      exact (ih seen).cons art
    · rw [if_neg hc]
      exact (ih (art.url :: seen)).cons₂ art

theorem deduplicateNewsAux_not_seen (seen : List String) (l : List NewsArticle)
    (a : NewsArticle) (h : a ∈ deduplicateNewsAux seen l) :
    seen.contains a.url = false := by
  induction l generalizing seen with
  | nil => simp [deduplicateNewsAux] at h
  | cons art rest ih =>
    rw [deduplicateNewsAux] at h
    by_cases hc : seen.contains art.url = true
    · rw [if_pos hc] at h
      exact ih seen h
    · rw [if_neg hc] at h
      rcases List.mem_cons.mp h with h1 | h1
      · subst h1
        exact Bool.not_eq_true _ |>.mp hc
      · have := ih (art.url :: seen) h1
        rw [List.contains_cons] at this
        exact (Bool.or_eq_false_iff.mp this).2

theorem deduplicateNewsAux_urls_nodup (seen : List String) (l : List NewsArticle) :
    ((deduplicateNewsAux seen l).map (fun a => a.url)).Nodup := by
  induction l generalizing seen with
  | nil => simp [deduplicateNewsAux]
  | cons art rest ih =>
    rw [deduplicateNewsAux]
    by_cases hc : seen.contains art.url = true
    · rw [if_pos hc]
      exact ih seen
    · rw [if_neg hc]
      simp only [List.map_cons, List.nodup_cons]
      refine ⟨?_, ih (art.url :: seen)⟩
      intro hmem
      rcases List.mem_map.mp hmem with ⟨b, hb, hburl⟩
      have := deduplicateNewsAux_not_seen _ _ _ hb
      rw [List.contains_cons, Bool.or_eq_false_iff] at this
      have hne : (b.url == art.url) = false := this.1
      rw [hburl] at hne
      simp at hne

theorem deduplicateNewsAux_first (seen : List String) (l : List NewsArticle)
    (a : NewsArticle) (h : a ∈ deduplicateNewsAux seen l) :
    l.find? (fun b => b.url == a.url) = some a := by
  induction l generalizing seen with
  | nil => simp [deduplicateNewsAux] at h
  | cons art rest ih =>
    rw [deduplicateNewsAux] at h
    by_cases hc : seen.contains art.url = true
    · rw [if_pos hc] at h
      have hns := deduplicateNewsAux_not_seen _ _ _ h
      have hne : (art.url == a.url) = false := by
        by_contra hcon
        have : art.url = a.url := by
          have := Bool.not_eq_false (art.url == a.url) ▸ hcon
          exact beq_iff_eq.mp this
        rw [← this] at hns
        rw [hc] at hns
        simp at hns
      rw [List.find?_cons]
      simp only [hne]
      exact ih seen h
    · rw [if_neg hc] at h
      rcases List.mem_cons.mp h with h1 | h1
      · subst h1
        rw [List.find?_cons]
        simp
      · have hns := deduplicateNewsAux_not_seen _ _ _ h1
        rw [List.contains_cons, Bool.or_eq_false_iff] at hns
        have hne : (art.url == a.url) = false := by
          have := hns.1
          simp only [beq_eq_false_iff_ne] at this ⊢
          exact fun hcon => this hcon.symm
        rw [List.find?_cons]
        simp only [hne]
        exact ih (art.url :: seen) h1

theorem deduplicateNewsAux_covers (seen : List String) (l : List NewsArticle)
    (a : NewsArticle) (ha : a ∈ l) (hs : seen.contains a.url = false) :
    ∃ b ∈ deduplicateNewsAux seen l, b.url = a.url := by
  induction l generalizing seen with
  | nil => simp at ha
  | cons art rest ih =>
    rw [deduplicateNewsAux]
    by_cases hc : seen.contains art.url = true
    · rw [if_pos hc]
      rcases List.mem_cons.mp ha with h1 | h1
      · subst h1
        rw [hs] at hc
        exact absurd hc (by simp)
      · exact ih seen h1 hs
    · rw [if_neg hc]
      by_cases hurl : art.url = a.url
      · exact ⟨art, List.mem_cons_self _ _, hurl⟩
      · rcases List.mem_cons.mp ha with h1 | h1
        · exact absurd (congrArg NewsArticle.url h1.symm) hurl
        · have hs' : (art.url :: seen).contains a.url = false := by
            rw [List.contains_cons, Bool.or_eq_false_iff]
            refine ⟨?_, hs⟩
            simp only [beq_eq_false_iff_ne]
            exact fun hcon => hurl hcon.symm
          rcases ih (art.url :: seen) h1 hs' with ⟨b, hb, hburl⟩
          exact ⟨b, List.mem_cons_of_mem _ hb, hburl⟩

theorem deduplicateNewsAux_skip_dup (l1 : List NewsArticle) :
    ∀ (seen : List String) (b : NewsArticle) (l2 : List NewsArticle),
      ((∃ a ∈ l1, a.url = b.url) ∨ b.url ∈ seen) →
      deduplicateNewsAux seen (l1 ++ b :: l2) = deduplicateNewsAux seen (l1 ++ l2) := by
  induction l1 with
  | nil =>
    intro seen b l2 h
    rcases h with ⟨a, ha, _⟩ | h
    · simp at ha
    · show deduplicateNewsAux seen (b :: l2) = deduplicateNewsAux seen l2
      rw [deduplicateNewsAux, if_pos (List.elem_eq_true_of_mem h)]
  | cons h1 t ih =>
    intro seen b l2 hyp
    show deduplicateNewsAux seen (h1 :: (t ++ b :: l2))
      = deduplicateNewsAux seen (h1 :: (t ++ l2))
    rw [deduplicateNewsAux, deduplicateNewsAux]
    by_cases hc : seen.contains h1.url = true
    · rw [if_pos hc, if_pos hc]
      apply ih
      rcases hyp with ⟨a, ha, hau⟩ | hyp
      · rcases List.mem_cons.mp ha with rfl | ha2
        · right
          rw [← hau]
          exact List.mem_of_elem_eq_true hc
        · exact Or.inl ⟨a, ha2, hau⟩
      · exact Or.inr hyp
    · rw [if_neg hc, if_neg hc]
      congr 1
      apply ih
      rcases hyp with ⟨a, ha, hau⟩ | hyp
      · rcases List.mem_cons.mp ha with rfl | ha2
        · right
          rw [← hau]
          exact List.mem_cons_self _ _
        · exact Or.inl ⟨a, ha2, hau⟩
      · exact Or.inr (List.mem_cons_of_mem _ hyp)

/-- C2.  Deduplication is first-occurrence-wins: the output of
`deduplicateNews` has pairwise distinct URLs, is a sublist of the input
(first-seen order, elements unchanged), every kept article is exactly the
first input occurrence of its URL, every input URL is represented and
appears exactly once in the output, and a later occurrence of an
already-seen URL contributes nothing at all — deleting it, with whatever
`relatedAssets` it carried, leaves the output unchanged. -/
theorem deduplicateNews_first_occurrence_wins (l : List NewsArticle) :
    ((deduplicateNews l).map (fun a => a.url)).Nodup
    ∧ (deduplicateNews l).Sublist l
    ∧ (∀ a ∈ deduplicateNews l, l.find? (fun b => b.url == a.url) = some a)
    ∧ (∀ a ∈ l, ∃ b ∈ deduplicateNews l, b.url = a.url)
    ∧ (∀ a ∈ l, ((deduplicateNews l).map (fun x => x.url)).count a.url = 1)
    ∧ (∀ (l1 l2 : List NewsArticle) (b : NewsArticle),
        (∃ a ∈ l1, a.url = b.url) →
        deduplicateNews (l1 ++ b :: l2) = deduplicateNews (l1 ++ l2)) := by
  refine ⟨deduplicateNewsAux_urls_nodup [] l, deduplicateNewsAux_sublist [] l,
    fun a ha => deduplicateNewsAux_first [] l a ha,
    fun a ha => deduplicateNewsAux_covers [] l a ha (by simp),
    ?_, fun l1 l2 b hex => deduplicateNewsAux_skip_dup l1 [] b l2 (Or.inl hex)⟩
  intro a ha
  rcases deduplicateNewsAux_covers [] l a ha (by simp) with ⟨b, hb, hburl⟩
  have hmem : a.url ∈ (deduplicateNews l).map (fun x => x.url) :=
    List.mem_map.mpr ⟨b, hb, hburl⟩
  have hle : ((deduplicateNews l).map (fun x => x.url)).count a.url ≤ 1 :=
    List.nodup_iff_count_le_one.mp (deduplicateNewsAux_urls_nodup [] l) a.url
  have hpos : 0 < ((deduplicateNews l).map (fun x => x.url)).count a.url :=
    List.count_pos_iff.mpr hmem
  omega

/-! Lemmas about `calculateRelevance`. -/

theorem relevance_foldl_eq (p : String → Bool) (l : List String) (init : ℚ) :
    l.foldl (fun s keyword => if p keyword then s + 1/10 else s) init
      = init + (l.countP p) * (1/10) := by
  induction l generalizing init with
  | nil => simp
  | cons k rest ih =>
    rw [List.foldl_cons, List.countP_cons]
    by_cases hp : p k = true
    · rw [if_pos hp, if_pos hp, ih]
      push_cast
      ring
    · rw [if_neg hp, if_neg hp, ih]
      push_cast
      ring

theorem fp_foldl_iterate (p : String → Bool) (d : ℚ) (l : List String) (init : ℚ) :
    l.foldl (fun s keyword => if p keyword then fladd s d else s) init
      = (fun s => fladd s d)^[l.countP p] init := by
  induction l generalizing init with
  | nil => simp
  | cons k rest ih =>
    rw [List.foldl_cons, List.countP_cons]
    by_cases hp : p k = true
    · rw [if_pos hp, if_pos hp, ih, Function.iterate_succ_apply]
    · rw [if_neg hp, if_neg hp, ih, Nat.add_zero]

unseal Rat.add Rat.mul Rat.inv Rat.sub in
/-- The possible binary64 keyword accumulations are all nonnegative (there
are at most 6 keywords and the base is 0 or the double 0.5). -/
theorem fp_iterate_nonneg : ∀ k : Nat, k ≤ 6 → ∀ b : ℚ,
    (b = 0 ∨ b = fladd 0 (roundDouble (1/2))) →
    0 ≤ (fun s => fladd s (roundDouble (1/10)))^[k] b := by
  intro k hk b hb
  interval_cases k <;> rcases hb with rfl | rfl <;> decide

unseal Rat.add Rat.mul Rat.inv Rat.sub in
/-- The binary64 score after an asset match and three keyword hits:
7205759403792793 / 2^53, one ulp below 0.8. -/
theorem fp_score_at_three :
    min ((fun s => fladd s (roundDouble (1/10)))^[3] (fladd 0 (roundDouble (1/2)))) 1
      = 7205759403792793 / 2 ^ 53 := by
  decide

unseal Rat.add Rat.mul Rat.inv Rat.sub in
/-- That binary64 score is not 0.8. -/
theorem fp_score_at_three_ne : (7205759403792793 / 2 ^ 53 : ℚ) ≠ 4 / 5 := by
  decide

unseal Rat.add Rat.mul Rat.inv Rat.sub in
/-- That binary64 score lies strictly below 0.8, within one ulp of it. -/
theorem fp_score_at_three_close :
    (7205759403792793 / 2 ^ 53 : ℚ) < 4 / 5
    ∧ (4 / 5 : ℚ) - 7205759403792793 / 2 ^ 53 < 1 / 2 ^ 52 := by
  constructor <;> decide

/-- The idealized (exact rational) closed form of `calculateRelevance`. -/
theorem calculateRelevance_ideal_form (title description asset : String) :
    calculateRelevance title description asset =
      min ((if jsIncludes (jsToLower (title ++ " " ++ description)) (jsToLower asset)
            then (1 : ℚ)/2 else 0)
        + (relevanceKeywords.countP
            (fun k => jsIncludes (jsToLower (title ++ " " ++ description)) k)) * (1/10)) 1 := by
  rw [calculateRelevance]
  rw [relevance_foldl_eq (fun k => jsIncludes (jsToLower (title ++ " " ++ description)) k)]
  norm_num

/-- The binary64 closed form of `calculateRelevanceFP`. -/
theorem calculateRelevanceFP_form (title description asset : String) :
    calculateRelevanceFP title description asset =
      min ((fun s => fladd s (roundDouble (1/10)))^[relevanceKeywords.countP
            (fun k => jsIncludes (jsToLower (title ++ " " ++ description)) k)]
          (if jsIncludes (jsToLower (title ++ " " ++ description)) (jsToLower asset)
            then fladd 0 (roundDouble (1/2)) else 0)) 1 := by
  rw [calculateRelevanceFP]
  rw [fp_foldl_iterate (fun k => jsIncludes (jsToLower (title ++ " " ++ description)) k)]

/-- C3 (amended).  Relevance scoring: in the idealized exact arithmetic
the score is `min (base + 0.1 * keywordCount) 1` with base `0.5` on an
asset-name match, lies in `[0, 1]`, and equals `0.8` at an asset match
with exactly 3 keywords; under the program's IEEE-754 binary64 arithmetic
the score still lies in `[0, 1]`, but at an asset match with exactly 3
keywords the accumulated value is `7205759403792793 / 2^53` — strictly
below `0.8`, within one ulp of it — and NOT exactly `0.8`. -/
theorem calculateRelevance_float_spec :
    (∀ title description asset : String,
      calculateRelevance title description asset =
        min ((if jsIncludes (jsToLower (title ++ " " ++ description)) (jsToLower asset)
              then (1 : ℚ)/2 else 0)
          + (relevanceKeywords.countP
              (fun k => jsIncludes (jsToLower (title ++ " " ++ description)) k)) * (1/10)) 1
      ∧ 0 ≤ calculateRelevance title description asset
      ∧ calculateRelevance title description asset ≤ 1)
    ∧ (∀ title description asset : String,
      0 ≤ calculateRelevanceFP title description asset
      ∧ calculateRelevanceFP title description asset ≤ 1)
    ∧ (∀ title description asset : String,
      jsIncludes (jsToLower (title ++ " " ++ description)) (jsToLower asset) = true →
      relevanceKeywords.countP
        (fun k => jsIncludes (jsToLower (title ++ " " ++ description)) k) = 3 →
      calculateRelevance title description asset = 4/5
      ∧ calculateRelevanceFP title description asset = 7205759403792793 / 2 ^ 53
      ∧ calculateRelevanceFP title description asset ≠ 4/5
      ∧ calculateRelevanceFP title description asset < 4/5
      ∧ 4/5 - calculateRelevanceFP title description asset < 1 / 2 ^ 52) := by
  refine ⟨?_, ?_, ?_⟩
  · intro title description asset
    refine ⟨calculateRelevance_ideal_form title description asset, ?_, ?_⟩
    · rw [calculateRelevance_ideal_form]
      apply le_min
      · have h1 : (0 : ℚ) ≤ (if jsIncludes (jsToLower (title ++ " " ++ description))
            (jsToLower asset) then (1 : ℚ)/2 else 0) := by positivity
        have h2 : (0 : ℚ) ≤ (relevanceKeywords.countP
            (fun k => jsIncludes (jsToLower (title ++ " " ++ description)) k)) * (1/10) := by
          positivity
        linarith
      · norm_num
    · rw [calculateRelevance_ideal_form]
      exact min_le_right _ _
  · intro title description asset
    rw [calculateRelevanceFP_form]
    have hk6 : relevanceKeywords.countP
        (fun k => jsIncludes (jsToLower (title ++ " " ++ description)) k) ≤ 6 :=
      Nat.le_trans (List.countP_le_length _) (by decide)
    have hb : (if jsIncludes (jsToLower (title ++ " " ++ description)) (jsToLower asset)
          then fladd 0 (roundDouble (1/2)) else 0) = 0
        ∨ (if jsIncludes (jsToLower (title ++ " " ++ description)) (jsToLower asset)
          then fladd 0 (roundDouble (1/2)) else 0) = fladd 0 (roundDouble (1/2)) := by
      by_cases hbc : jsIncludes (jsToLower (title ++ " " ++ description))
          (jsToLower asset) = true
      · rw [if_pos hbc]
        right
        rfl
      · rw [if_neg hbc]
        left
        rfl
    exact ⟨le_min (fp_iterate_nonneg _ hk6 _ hb) (by norm_num), min_le_right _ _⟩
  · intro title description asset h1 h2
    have hfp : calculateRelevanceFP title description asset = 7205759403792793 / 2 ^ 53 := by
      rw [calculateRelevanceFP_form, h2, if_pos h1]
      exact fp_score_at_three
    refine ⟨?_, hfp, ?_, ?_, ?_⟩
    · rw [calculateRelevance_ideal_form, h1, h2]
      norm_num
    · rw [hfp]
      exact fp_score_at_three_ne
    · rw [hfp]
      exact fp_score_at_three_close.1
    · rw [hfp]
      exact fp_score_at_three_close.2

/-- Counterexample to C3 as stated: under the program's binary64
arithmetic, a concrete article containing the asset name and exactly 3 of
the domain keywords scores `7205759403792793 / 2^53` (printed
0.7999999999999999), one unit in the last place below 0.8 — not exactly
0.8; only the idealized real-number accumulation gives 0.8. -/
theorem calculateRelevance_exact08_counterexample :
    jsIncludes (jsToLower ("Bitcoin price rally" ++ " " ++ "market trading surges"))
      (jsToLower "Bitcoin") = true
    ∧ relevanceKeywords.countP
        (fun k => jsIncludes (jsToLower ("Bitcoin price rally" ++ " " ++ "market trading surges")) k) = 3
    ∧ calculateRelevanceFP "Bitcoin price rally" "market trading surges" "Bitcoin"
        = 7205759403792793 / 2 ^ 53
    ∧ calculateRelevanceFP "Bitcoin price rally" "market trading surges" "Bitcoin" ≠ 4/5 := by
  have hval : calculateRelevanceFP "Bitcoin price rally" "market trading surges" "Bitcoin"
      = 7205759403792793 / 2 ^ 53 := by
    rw [calculateRelevanceFP_form]
    rw [(by decide : relevanceKeywords.countP
      (fun k => jsIncludes
        (jsToLower ("Bitcoin price rally" ++ " " ++ "market trading surges")) k) = 3)]
    rw [if_pos (by decide : jsIncludes
      (jsToLower ("Bitcoin price rally" ++ " " ++ "market trading surges"))
      (jsToLower "Bitcoin") = true)]
    exact fp_score_at_three
  exact ⟨by decide, by decide, hval, by rw [hval]; exact fp_score_at_three_ne⟩

/-- Witness for the amended C3: a concrete text with the asset name and
exactly three keywords scores 0.8 ideally and one ulp below 0.8 in
binary64. -/
theorem calculateRelevance_float_spec_witness :
    jsIncludes (jsToLower ("Gold price outlook" ++ " " ++ "market analysis"))
      (jsToLower "Gold") = true
    ∧ relevanceKeywords.countP
        (fun k => jsIncludes (jsToLower ("Gold price outlook" ++ " " ++ "market analysis")) k) = 3
    ∧ calculateRelevance "Gold price outlook" "market analysis" "Gold" = 4/5
    ∧ calculateRelevanceFP "Gold price outlook" "market analysis" "Gold" ≠ 4/5 :=
  ⟨by decide, by decide,
   (calculateRelevance_float_spec.2.2 "Gold price outlook" "market analysis" "Gold"
     (by decide) (by decide)).1,
   (calculateRelevance_float_spec.2.2 "Gold price outlook" "market analysis" "Gold"
     (by decide) (by decide)).2.2.1⟩

/-- Sample article for the dedup witness: first occurrence of its URL. -/
def c2Article1 : NewsArticle :=
  { title := "t1", description := "d1", source := "s1", publishedAt := 10,
    url := "https://example.com/a", relatedAssets := ["BTC"],
    sentiment := { score := 0, label := "neutral", confidence := 0 },
    relevanceScore := 0 }

/-- Sample article for the dedup witness: second occurrence of the same
URL carrying a different asset tag. -/
def c2Article2 : NewsArticle :=
  { title := "t2", description := "d2", source := "s2", publishedAt := 20,
    url := "https://example.com/a", relatedAssets := ["ETH"],
    sentiment := { score := 0, label := "neutral", confidence := 0 },
    relevanceScore := 0 }

/-- Witness for C2: on a two-element batch sharing one URL, the first
occurrence survives unchanged, its URL appears exactly once, and deleting
the second occurrence (with its different asset tag) changes nothing. -/
theorem deduplicateNews_first_occurrence_wins_witness :
    (c2Article1 ∈ deduplicateNews [c2Article1, c2Article2]
      ∧ [c2Article1, c2Article2].find? (fun b => b.url == c2Article1.url) = some c2Article1)
    ∧ (c2Article2 ∈ [c2Article1, c2Article2]
      ∧ ∃ b ∈ deduplicateNews [c2Article1, c2Article2], b.url = c2Article2.url)
    ∧ (c2Article1 ∈ [c2Article1, c2Article2]
      ∧ ((deduplicateNews [c2Article1, c2Article2]).map (fun x => x.url)).count
          c2Article1.url = 1)
    ∧ ((∃ a ∈ [c2Article1], a.url = c2Article2.url)
      ∧ deduplicateNews ([c2Article1] ++ c2Article2 :: [])
          = deduplicateNews ([c2Article1] ++ [])) :=
  ⟨⟨by decide,
    (deduplicateNews_first_occurrence_wins [c2Article1, c2Article2]).2.2.1 c2Article1 (by decide)⟩,
   ⟨by decide,
    (deduplicateNews_first_occurrence_wins [c2Article1, c2Article2]).2.2.2.1 c2Article2 (by decide)⟩,
   ⟨by decide,
    (deduplicateNews_first_occurrence_wins [c2Article1, c2Article2]).2.2.2.2.1 c2Article1 (by decide)⟩,
   ⟨⟨c2Article1, by decide, by decide⟩,
    (deduplicateNews_first_occurrence_wins [c2Article1, c2Article2]).2.2.2.2.2 [c2Article1] []
      c2Article2 ⟨c2Article1, by decide, by decide⟩⟩⟩

/-! Generic lemmas about `rowUpsert`. -/

theorem find?_map_fix {α : Type} (l : List α) (isKey : α → Bool) (update : α → α)
    (p : α → Bool) (hpu : ∀ r, isKey r = true → p (update r) = false)
    (hdisj : ∀ r, isKey r = true → p r = false) :
    (l.map (fun r => if isKey r then update r else r)).find? p = l.find? p := by
  induction l with
  | nil => simp
  | cons h t ih =>
    rw [List.map_cons, List.find?_cons, List.find?_cons]
    by_cases hk : isKey h = true
    · rw [if_pos hk, hpu h hk, hdisj h hk]
      exact ih
    · rw [if_neg hk]
      by_cases hp : p h = true
      · rw [hp]
      · rw [Bool.not_eq_true] at hp
        rw [hp]
        exact ih

theorem find?_append_single {α : Type} (l : List α) (x : α) (p : α → Bool)
    (hx : p x = false) : (l ++ [x]).find? p = l.find? p := by
  induction l with
  | nil => simp [List.find?_cons, hx]
  | cons h t ih =>
    rw [List.cons_append, List.find?_cons, List.find?_cons]
    by_cases hp : p h = true
    · rw [hp]
    · rw [Bool.not_eq_true] at hp
      rw [hp]
      exact ih

theorem find?_rowUpsert_self {α : Type} (l : List α) (isKey : α → Bool)
    (update : α → α) (create : α) (hc : isKey create = true)
    (hu : ∀ r, isKey r = true → isKey (update r) = true) :
    (rowUpsert l isKey update create).find? isKey =
      some (match l.find? isKey with | some r => update r | none => create) := by
  induction l with
  | nil => simp [rowUpsert, List.find?_cons, hc]
  | cons h t ih =>
    rw [rowUpsert]
    by_cases hk : isKey h = true
    · have hany : (h :: t).any isKey = true := by
        rw [List.any_cons, hk, Bool.true_or]
      rw [if_pos hany, List.map_cons, if_pos hk, List.find?_cons, hu h hk,
        List.find?_cons, hk]
    · have hany : (h :: t).any isKey = t.any isKey := by
        rw [List.any_cons, Bool.not_eq_true] at *
        rw [hk, Bool.false_or]
      rw [Bool.not_eq_true] at hk
      by_cases ha : t.any isKey = true
      · rw [if_pos (by rw [hany]; exact ha), List.map_cons, if_neg (by simp [hk]),
          List.find?_cons, hk, List.find?_cons, hk]
        rw [rowUpsert, if_pos ha] at ih
        exact ih
      · rw [Bool.not_eq_true] at ha
        rw [if_neg (by rw [hany, ha]; simp), List.cons_append, List.find?_cons, hk,
          List.find?_cons, hk]
        rw [rowUpsert, if_neg (by rw [ha]; simp)] at ih
        exact ih

theorem find?_rowUpsert_other {α : Type} (l : List α) (isKey : α → Bool)
    (update : α → α) (create : α) (p : α → Bool)
    (hpc : p create = false)
    (hdisj : ∀ r, isKey r = true → p r = false)
    (hpu : ∀ r, isKey r = true → p (update r) = false) :
    (rowUpsert l isKey update create).find? p = l.find? p := by
  rw [rowUpsert]
  by_cases hany : l.any isKey = true
  · rw [if_pos hany]
    exact find?_map_fix l isKey update p hpu hdisj
  · rw [if_neg hany]
    exact find?_append_single l create p hpc

/-! The `rowUpsert` lemmas specialized to the news table. -/

theorem findUniqueNews_upsert_self (store : NewsStore) (a : NewsArticle) :
    ∃ r, findUniqueNews (upsertNews store a) a.url = some r ∧ rowMatches r a := by
  have h := find?_rowUpsert_self store (fun r => r.url == a.url) (updateRow a) (createRow a)
    (by simp [createRow]) (fun r hr => by simpa [updateRow] using hr)
  cases hfind : store.find? (fun r => r.url == a.url) with
  | none =>
    rw [hfind] at h
    exact ⟨createRow a, h, by simp [rowMatches, createRow]⟩
  | some r0 =>
    rw [hfind] at h
    have hr0 : r0.url = a.url := by
      have := List.find?_some hfind
      simpa using this
    exact ⟨updateRow a r0, h, by simp [rowMatches, updateRow, hr0]⟩

theorem findUniqueNews_upsert_other (store : NewsStore) (a : NewsArticle)
    (u : String) (h : u ≠ a.url) :
    findUniqueNews (upsertNews store a) u = findUniqueNews store u := by
  have hne : ∀ r : StoredNews, r.url = a.url → (r.url == u) = false := by
    intro r hr
    rw [hr]
    simp only [beq_eq_false_iff_ne]
    exact fun hc => h hc.symm
  exact find?_rowUpsert_other store (fun r => r.url == a.url) (updateRow a) (createRow a)
    (fun r => r.url == u)
    (hne (createRow a) rfl)
    (fun r hr => hne r (by simpa using hr))
    (fun r hr => hne (updateRow a r) (by simpa [updateRow] using hr))

theorem hasUrl_upsert (store : NewsStore) (a : NewsArticle) (u : String)
    (h : hasUrl store u = true) : hasUrl (upsertNews store a) u = true := by
  by_cases hu : u = a.url
  · subst hu
    rcases findUniqueNews_upsert_self store a with ⟨r, hr, _⟩
    rw [hasUrl, hr]
    rfl
  · rw [hasUrl, findUniqueNews_upsert_other store a u hu]
    exact h

theorem hasUrl_storeNews (batch : List NewsArticle) :
    ∀ store u, hasUrl store u = true → hasUrl (storeNews store batch).1 u = true := by
  induction batch with
  | nil => exact fun store u h => h
  | cons a rest ih =>
    intro store u h
    exact ih (upsertNews store a) u (hasUrl_upsert store a u h)

theorem storeNews_not_new (batch : List NewsArticle) :
    ∀ store a2, hasUrl store a2.url = true → a2 ∉ (storeNews store batch).2 := by
  induction batch with
  | nil => intro store a2 _ hmem; simp [storeNews] at hmem
  | cons a rest ih =>
    intro store a2 h
    have hstep : (storeNews store (a :: rest)).2 =
        if (findUniqueNews store a.url).isNone
        then a :: (storeNews (upsertNews store a) rest).2
        else (storeNews (upsertNews store a) rest).2 := rfl
    rw [hstep]
    by_cases hnew : (findUniqueNews store a.url).isNone = true
    · rw [if_pos hnew]
      intro hmem
      rcases List.mem_cons.mp hmem with h1 | h1
      · subst h1
        rw [hasUrl] at h
        rw [Option.isNone_iff_eq_none] at hnew
        rw [hnew] at h
        simp at h
      · exact ih (upsertNews store a) a2 (hasUrl_upsert store a a2.url h) h1
    · rw [if_neg hnew]
      exact ih (upsertNews store a) a2 (hasUrl_upsert store a a2.url h)

theorem storeNews_find_untouched (batch : List NewsArticle) :
    ∀ store u, (∀ b ∈ batch, b.url ≠ u) →
      findUniqueNews (storeNews store batch).1 u = findUniqueNews store u := by
  induction batch with
  | nil => intro store u _; rfl
  | cons a rest ih =>
    intro store u hb
    have h1 : a.url ≠ u := hb a (List.mem_cons_self a rest)
    calc findUniqueNews (storeNews store (a :: rest)).1 u
        = findUniqueNews (storeNews (upsertNews store a) rest).1 u := rfl
      _ = findUniqueNews (upsertNews store a) u :=
          ih (upsertNews store a) u (fun b hbm => hb b (List.mem_cons_of_mem a hbm))
      _ = findUniqueNews store u :=
          findUniqueNews_upsert_other store a u (fun hc => h1 hc.symm)

theorem storeNews_result_filter (batch : List NewsArticle) :
    ∀ store, (batch.map (fun a => a.url)).Nodup →
      (storeNews store batch).2 = batch.filter (fun a => !(hasUrl store a.url)) := by
  induction batch with
  | nil => intro store _; rfl
  | cons a rest ih =>
    intro store hnodup
    rw [List.map_cons, List.nodup_cons] at hnodup
    obtain ⟨hna, hnrest⟩ := hnodup
    have hstep : (storeNews store (a :: rest)).2 =
        if (findUniqueNews store a.url).isNone
        then a :: (storeNews (upsertNews store a) rest).2
        else (storeNews (upsertNews store a) rest).2 := rfl
    rw [hstep, ih (upsertNews store a) hnrest]
    have hsame : ∀ b ∈ rest,
        (!(hasUrl (upsertNews store a) b.url)) = (!(hasUrl store b.url)) := by
      intro b hbm
      have hbu : b.url ≠ a.url := by
        intro hc
        exact hna (List.mem_map.mpr ⟨b, hbm, hc⟩)
      rw [hasUrl, hasUrl, findUniqueNews_upsert_other store a b.url hbu]
    rw [List.filter_congr hsame, List.filter_cons]
    cases hfind : findUniqueNews store a.url with
    | none => simp [hasUrl, hfind]
    | some r => simp [hasUrl, hfind]

theorem storeNews_refreshes (batch : List NewsArticle) :
    ∀ store, (batch.map (fun a => a.url)).Nodup →
      ∀ a ∈ batch, ∃ r, findUniqueNews (storeNews store batch).1 a.url = some r
        ∧ rowMatches r a := by
  induction batch with
  | nil => intro store _ a ha; simp at ha
  | cons b rest ih =>
    intro store hnodup a ha
    rw [List.map_cons, List.nodup_cons] at hnodup
    obtain ⟨hnb, hnrest⟩ := hnodup
    rcases List.mem_cons.mp ha with h1 | h1
    · subst h1
      rcases findUniqueNews_upsert_self store a with ⟨r, hr, hm⟩
      refine ⟨r, ?_, hm⟩
      have huntouched : ∀ bb ∈ rest, bb.url ≠ a.url := by
        intro bb hbb hc
        exact hnb (List.mem_map.mpr ⟨bb, hbb, hc⟩)
      calc findUniqueNews (storeNews store (a :: rest)).1 a.url
          = findUniqueNews (storeNews (upsertNews store a) rest).1 a.url := rfl
        _ = findUniqueNews (upsertNews store a) a.url :=
            storeNews_find_untouched rest (upsertNews store a) a.url huntouched
        _ = some r := hr
    · exact ih (upsertNews store b) hnrest a h1

/-- C1.  Newness determination of `storeNews` on a URL-deduplicated batch:
the returned articles are exactly those whose URL was absent from the
store when the call began; every article of the batch ends up stored with
its canonical fields (insert or refresh); and a URL present in the store
afterwards — in particular one just returned as new — is never returned
again by any later `storeNews` call that encounters it. -/
theorem storeNews_newness (store : NewsStore) (batch : List NewsArticle)
    (hnodup : (batch.map (fun a => a.url)).Nodup) :
    (storeNews store batch).2 = batch.filter (fun a => !(hasUrl store a.url))
    ∧ (∀ a ∈ batch, ∃ r, findUniqueNews (storeNews store batch).1 a.url = some r
        ∧ rowMatches r a)
    ∧ (∀ a ∈ batch, ∀ (batch2 : List NewsArticle) (a2 : NewsArticle),
        a2 ∈ batch2 → a2.url = a.url →
        a2 ∉ (storeNews (storeNews store batch).1 batch2).2) := by
  refine ⟨storeNews_result_filter batch store hnodup,
    storeNews_refreshes batch store hnodup, ?_⟩
  intro a ha batch2 a2 _ hurl
  apply storeNews_not_new batch2
  rcases storeNews_refreshes batch store hnodup a ha with ⟨r, hr, _⟩
  rw [hasUrl, hurl, hr]
  rfl

/-- Sample article for the storeNews witness. -/
def c1Article : NewsArticle :=
  { title := "t", description := "d", source := "s", publishedAt := 5,
    url := "https://example.com/n1", relatedAssets := ["GOLD"],
    sentiment := { score := 0, label := "neutral", confidence := 0 },
    relevanceScore := 0 }

/-- Witness for C1: ingesting one fresh article into an empty store
returns it as new, stores its fields, and a second ingest of the same URL
returns nothing. -/
theorem storeNews_newness_witness :
    (([c1Article].map (fun a => a.url)).Nodup)
    ∧ (storeNews ([] : NewsStore) [c1Article]).2
        = [c1Article].filter (fun a => !(hasUrl ([] : NewsStore) a.url))
    ∧ (∃ r, findUniqueNews (storeNews ([] : NewsStore) [c1Article]).1 c1Article.url = some r
        ∧ rowMatches r c1Article)
    ∧ c1Article ∉ (storeNews (storeNews ([] : NewsStore) [c1Article]).1 [c1Article]).2 :=
  ⟨by decide,
   (storeNews_newness ([] : NewsStore) [c1Article] (by decide)).1,
   (storeNews_newness ([] : NewsStore) [c1Article] (by decide)).2.1 c1Article
     (List.mem_singleton.mpr rfl),
   (storeNews_newness ([] : NewsStore) [c1Article] (by decide)).2.2 c1Article
     (List.mem_singleton.mpr rfl) [c1Article] c1Article
     (List.mem_singleton.mpr rfl) rfl⟩

/-! Lemmas about the two cache tiers. -/

theorem memGet_memSet_self {V : Type} (mem : List (String × MemEntry V))
    (now : Nat) (key : String) (v : V) (ttl t : Nat) :
    memGet (memSet mem now key v ttl) t key =
      if t ≤ now + ttl * 1000 then some v else none := by
  have h := find?_rowUpsert_self mem (fun p => p.1 == key)
    (fun _ => (key, ⟨v, now + ttl * 1000⟩)) (key, ⟨v, now + ttl * 1000⟩)
    (by simp) (fun r _ => by simp)
  have hfind : (memSet mem now key v ttl).find? (fun p => p.1 == key) =
      some (key, ⟨v, now + ttl * 1000⟩) := by
    cases hf : mem.find? (fun p => p.1 == key) with
    | none => rw [hf] at h; exact h
    | some r => rw [hf] at h; exact h
  rw [memGet, hfind]

theorem memGet_evict {V : Type} (st : CacheState V) (key : String) (t : Nat) :
    memGet (evictMem st key).mem t key = none := by
  have hfind : (evictMem st key).mem.find? (fun p => p.1 == key) = none := by
    rw [List.find?_eq_none]
    intro p hp
    have := (List.mem_filter.mp hp).2
    simpa using this
  rw [memGet, hfind]

theorem dbFindUnique_dbUpsert_self {V : Type} (db : List (DbCacheEntry V))
    (key : String) (v : V) (expiresAt : Nat) :
    ∃ e, dbFindUnique (dbUpsert db key v expiresAt) key = some e
      ∧ e.data = v ∧ e.expiresAt = expiresAt := by
  have h := find?_rowUpsert_self db (fun e => e.cacheKey == key)
    (fun e => { e with data := v, expiresAt := expiresAt })
    { cacheKey := key, dataType := extractDataType key,
      assetSymbol := extractAssetSymbol key, data := v, expiresAt := expiresAt }
    (by simp) (fun r hr => by simpa using hr)
  cases hf : db.find? (fun e => e.cacheKey == key) with
  | none =>
    rw [hf] at h
    exact ⟨_, h, rfl, rfl⟩
  | some e0 =>
    rw [hf] at h
    exact ⟨_, h, rfl, rfl⟩

theorem cacheGet_some_src {V : Type} (st : CacheState V) (now : Nat)
    (key : String) (v : V) (st' : CacheState V)
    (h : cacheGet st now key = (some v, st')) :
    (∃ p ∈ st.mem, p.1 = key ∧ now ≤ p.2.expiresAt ∧ p.2.value = v)
    ∨ (∃ e ∈ st.db, e.cacheKey = key ∧ now < e.expiresAt ∧ e.data = v) := by
  unfold cacheGet at h
  cases hm : memGet st.mem now key with
  | some w =>
    simp only [hm, Prod.mk.injEq, Option.some.injEq] at h
    left
    unfold memGet at hm
    cases hf : st.mem.find? (fun p => p.1 == key) with
    | none => simp [hf] at hm
    | some p =>
      simp only [hf] at hm
      by_cases hle : now ≤ p.2.expiresAt
      · rw [if_pos hle] at hm
        refine ⟨p, List.mem_of_find?_eq_some hf, ?_, hle, ?_⟩
        · have := List.find?_some hf
          simpa using this
        · rw [Option.some.injEq] at hm
          rw [hm, h.1]
      · rw [if_neg hle] at hm
        simp at hm
  | none =>
    simp only [hm] at h
    cases hd : dbFindUnique st.db key with
    | none => simp [hd] at h
    | some e =>
      simp only [hd] at h
      by_cases hlt : now < e.expiresAt
      · rw [if_pos hlt] at h
        simp only [Prod.mk.injEq, Option.some.injEq] at h
        right
        refine ⟨e, List.mem_of_find?_eq_some hd, ?_, hlt, h.1⟩
        have := List.find?_some hd
        simpa using this
      · rw [if_neg hlt] at h
        simp at h

theorem cacheGet_after_expiry {V : Type} (st : CacheState V) (now : Nat)
    (key : String) (v : V) (ttl t : Nat)
    (h : now + actualTtl ttl * 1000 < t) :
    (cacheGet (cacheSet st now key v ttl) t key).1 = none := by
  have hm : memGet (cacheSet st now key v ttl).mem t key = none := by
    show memGet (memSet st.mem now key v (actualTtl ttl)) t key = none
    rw [memGet_memSet_self, if_neg (by omega)]
  obtain ⟨e, he, _, hexp⟩ :=
    dbFindUnique_dbUpsert_self st.db key v (now + actualTtl ttl * 1000)
  have hd : dbFindUnique (cacheSet st now key v ttl).db key = some e := he
  unfold cacheGet
  simp only [hm, hd]
  rw [if_neg (show ¬ t < e.expiresAt by omega)]

/-- C4 counterexample states: value 42 set at time 0 with a 1-second TTL,
fast tier evicted, durable hit written back at time 500. -/
def c4State1 : CacheState Nat := cacheSet (emptyCacheState Nat) 0 "news:BTC" 42 1

/-- The state after the fast-tier eviction. -/
def c4State2 : CacheState Nat := evictMem c4State1 "news:BTC"

/-- The state after the durable-tier hit was written back. -/
def c4State3 : CacheState Nat := (cacheGet c4State2 500 "news:BTC").2

/-- Counterexample to C4 as stated: the entry was set with a 1-second TTL
at time 0, so its expiry 1000 ms has passed at time 2000 — yet a read at
time 2000 still returns the value, because the durable-tier write-back at
time 500 re-armed the fast tier with the default TTL. -/
theorem cache_freshness_counterexample :
    (cacheGet c4State3 2000 "news:BTC").1 = some 42
    ∧ 0 + actualTtl 1 * 1000 < 2000 := by
  constructor
  · decide
  · decide

/-- C4 (amended).  Per-tier freshness does hold: a successful read comes
either from a fast-tier entry that has not passed its own (possibly
write-back-renewed) expiry, or from a durable row that has not passed its
expiry; and immediately after a `set`, once the TTL given there has
elapsed the key reads as absent.  The end-to-end invariant fails only
through the write-back path, which re-arms the fast tier with the default
TTL (see the counterexample). -/
theorem cache_freshness_amended :
    (∀ (V : Type) (st : CacheState V) (now : Nat) (key : String) (v : V)
        (st' : CacheState V),
      cacheGet st now key = (some v, st') →
      (∃ p ∈ st.mem, p.1 = key ∧ now ≤ p.2.expiresAt ∧ p.2.value = v)
      ∨ (∃ e ∈ st.db, e.cacheKey = key ∧ now < e.expiresAt ∧ e.data = v))
    ∧ (∀ (V : Type) (st : CacheState V) (now : Nat) (key : String) (v : V)
        (ttl t : Nat),
      now + actualTtl ttl * 1000 < t →
      (cacheGet (cacheSet st now key v ttl) t key).1 = none) :=
  ⟨fun _ st now key v st' h => cacheGet_some_src st now key v st' h,
   fun _ st now key v ttl t h => cacheGet_after_expiry st now key v ttl t h⟩

/-- Fresh state for the amended-C4 witness. -/
def c4WitnessState : CacheState Nat :=
  cacheSet (emptyCacheState Nat) 0 "price:BTC" 7 60

/-- Witness for the amended C4 at concrete inputs. -/
theorem cache_freshness_amended_witness :
    (cacheGet c4WitnessState 0 "price:BTC" = (some 7, c4WitnessState)
      ∧ ((∃ p ∈ c4WitnessState.mem, p.1 = "price:BTC" ∧ 0 ≤ p.2.expiresAt ∧ p.2.value = 7)
        ∨ (∃ e ∈ c4WitnessState.db, e.cacheKey = "price:BTC" ∧ 0 < e.expiresAt ∧ e.data = 7)))
    ∧ (0 + actualTtl 1 * 1000 < 2000
      ∧ (cacheGet (cacheSet (emptyCacheState Nat) 0 "k" (7 : Nat) 1) 2000 "k").1 = none) :=
  ⟨⟨by decide,
    cache_freshness_amended.1 Nat c4WitnessState 0 "price:BTC" 7 c4WitnessState (by decide)⟩,
   ⟨by decide,
    cache_freshness_amended.2 Nat (emptyCacheState Nat) 0 "k" 7 1 2000 (by decide)⟩⟩

/-- C5.  Cache round-trip: a `get` issued right after `set(k, v, ttl)` is
served from the fast tier and returns `v`; and when the fast-tier entry is
evicted while the durable row is still unexpired, `get` still returns `v`,
re-populates the fast tier (an immediate fast-tier read now succeeds), and
subsequent reads within the re-armed TTL are served from memory. -/
theorem cache_round_trip :
    (∀ (V : Type) (st : CacheState V) (now : Nat) (key : String) (v : V) (ttl : Nat),
      (cacheGet (cacheSet st now key v ttl) now key).1 = some v)
    ∧ (∀ (V : Type) (st : CacheState V) (now : Nat) (key : String) (v : V) (ttl t1 : Nat),
      t1 < now + actualTtl ttl * 1000 →
      (cacheGet (evictMem (cacheSet st now key v ttl) key) t1 key).1 = some v
      ∧ memGet ((cacheGet (evictMem (cacheSet st now key v ttl) key) t1 key).2).mem t1 key = some v
      ∧ (∀ t2, t2 ≤ t1 + defaultCacheTtl * 1000 →
          (cacheGet ((cacheGet (evictMem (cacheSet st now key v ttl) key) t1 key).2) t2 key).1
            = some v)) := by
  constructor
  · intro V st now key v ttl
    have hm : memGet (cacheSet st now key v ttl).mem now key = some v := by
      show memGet (memSet st.mem now key v (actualTtl ttl)) now key = some v
      rw [memGet_memSet_self, if_pos (Nat.le_add_right _ _)]
    unfold cacheGet
    simp only [hm]
  · intro V st now key v ttl t1 h
    have hmiss : memGet (evictMem (cacheSet st now key v ttl) key).mem t1 key = none :=
      memGet_evict _ key t1
    obtain ⟨e, he, hdata, hexp⟩ :=
      dbFindUnique_dbUpsert_self st.db key v (now + actualTtl ttl * 1000)
    have hd : dbFindUnique (evictMem (cacheSet st now key v ttl) key).db key = some e := he
    have hget : cacheGet (evictMem (cacheSet st now key v ttl) key) t1 key =
        (some v,
          { evictMem (cacheSet st now key v ttl) key with
            mem := memSet (evictMem (cacheSet st now key v ttl) key).mem t1 key v
              defaultCacheTtl }) := by
      unfold cacheGet
      simp only [hmiss, hd]
      rw [if_pos (show t1 < e.expiresAt by omega), hdata]
    refine ⟨by rw [hget], ?_, ?_⟩
    · rw [hget]
      show memGet (memSet (evictMem (cacheSet st now key v ttl) key).mem t1 key v
        defaultCacheTtl) t1 key = some v
      rw [memGet_memSet_self, if_pos (Nat.le_add_right _ _)]
    · intro t2 h2
      rw [hget]
      have hm2 : memGet (memSet (evictMem (cacheSet st now key v ttl) key).mem t1 key v
          defaultCacheTtl) t2 key = some v := by
        rw [memGet_memSet_self, if_pos h2]
      unfold cacheGet
      simp only [hm2]

/-- Witness for C5 at concrete inputs: value 7 set at time 0 with a
60-second TTL, fast tier evicted, read back at 30 s and again at 100 s. -/
theorem cache_round_trip_witness :
    (cacheGet (cacheSet (emptyCacheState Nat) 0 "k" (7 : Nat) 60) 0 "k").1 = some 7
    ∧ (30000 < 0 + actualTtl 60 * 1000
      ∧ (cacheGet (evictMem (cacheSet (emptyCacheState Nat) 0 "k" (7 : Nat) 60) "k") 30000 "k").1
          = some 7
      ∧ (100000 ≤ 30000 + defaultCacheTtl * 1000
        ∧ (cacheGet ((cacheGet (evictMem (cacheSet (emptyCacheState Nat) 0 "k" (7 : Nat) 60) "k")
            30000 "k").2) 100000 "k").1 = some 7)) :=
  ⟨cache_round_trip.1 Nat (emptyCacheState Nat) 0 "k" 7 60,
   by decide,
   (cache_round_trip.2 Nat (emptyCacheState Nat) 0 "k" 7 60 30000 (by decide)).1,
   by decide,
   (cache_round_trip.2 Nat (emptyCacheState Nat) 0 "k" 7 60 30000 (by decide)).2.2
     100000 (by decide)⟩

/-! Lemmas about the broadcast hub. -/

theorem broadcast_eq (clients : List Conn) (msg : WsMessage) :
    broadcast clients msg
      = (clients.filter (fun c => c.isOpen)).map (fun c => (c.id, msg)) := by
  induction clients with
  | nil => rfl
  | cons c rest ih =>
    by_cases hc : c.isOpen = true
    · simp only [broadcast, List.filterMap_cons, hc, if_true, List.filter_cons,
        List.map_cons] at ih ⊢
      rw [ih]
    · simp only [broadcast, List.filterMap_cons, hc, if_false, List.filter_cons,
        Bool.false_eq_true] at ih ⊢
      rw [ih]

/-- C6.  Snapshot on attach: for an open fresh connection the hub sends the
ack followed by exactly one snapshot envelope; an empty store yields the
explicit `count:0`, `data:[]` snapshot; a store with more than 100 rows
yields exactly the 100 most recent rows, ordered by publish time
descending, with `count:100`. -/
theorem snapshot_on_attach :
    (∀ (clients : List Conn) (ws : Conn) (store : NewsStore) (now : Nat),
      ws.isOpen = true →
      (handleConnection clients ws (.ok store) now).2 =
        [(ws.id, .connectionAck "Connected to news WebSocket" now),
         (ws.id, sendAllNewsToClient (.ok store) now)]
      ∧ isInitialNews (sendAllNewsToClient (.ok store) now) = true
      ∧ ((handleConnection clients ws (.ok store) now).2.countP
          (fun d => isInitialNews d.2)) = 1)
    ∧ (∀ now : Nat, sendAllNewsToClient (.ok []) now
        = .initialNews "No news available yet" 0 [] now)
    ∧ (∀ (store : NewsStore) (now : Nat), 100 < store.length →
      ∃ data rest, sendAllNewsToClient (.ok store) now
          = .initialNews "All existing news from database" 100 (data.map storedToArticle) now
        ∧ data.length = 100
        ∧ data.Pairwise (fun a b => b.publishedAt ≤ a.publishedAt)
        ∧ store.Perm (data ++ rest)
        ∧ (∀ a ∈ data, ∀ b ∈ rest, b.publishedAt ≤ a.publishedAt)) := by
  have hsnap : ∀ (store : NewsStore) (now : Nat),
      isInitialNews (sendAllNewsToClient (.ok store) now) = true := by
    intro store now
    rw [sendAllNewsToClient]
    by_cases h0 : ((findManyRecent store 100).length == 0) = true
    · rw [if_pos h0]; rfl
    · rw [if_neg h0]; rfl
  refine ⟨?_, ?_, ?_⟩
  · intro clients ws store now hopen
    have hmsgs : (handleConnection clients ws (.ok store) now).2 =
        [(ws.id, .connectionAck "Connected to news WebSocket" now),
         (ws.id, sendAllNewsToClient (.ok store) now)] := by
      show sendToClient ws _ ++ sendToClient ws _ = _
      rw [sendToClient, sendToClient, if_pos hopen, if_pos hopen]
      rfl
    refine ⟨hmsgs, hsnap store now, ?_⟩
    rw [hmsgs]
    simp [List.countP_cons, hsnap store now]
    rfl
  · intro now
    have : findManyRecent ([] : NewsStore) 100 = [] := by
      simp [findManyRecent]
    rw [sendAllNewsToClient, this]
    rfl
  · intro store now hlen
    have htrans : ∀ (a b c : StoredNews),
        newsDescBy a b → newsDescBy b c → newsDescBy a c := by
      intro a b c hab hbc
      simp only [newsDescBy, decide_eq_true_eq] at *
      omega
    have htotal : ∀ (a b : StoredNews), (newsDescBy a b || newsDescBy b a) = true := by
      intro a b
      simp only [newsDescBy, Bool.or_eq_true, decide_eq_true_eq]
      omega
    have hsorted : (store.mergeSort newsDescBy).Pairwise
        (fun a b => b.publishedAt ≤ a.publishedAt) := by
      have h := List.sorted_mergeSort htrans htotal store
      exact h.imp (fun hab => by simpa [newsDescBy] using hab)
    have hperm : store.Perm (store.mergeSort newsDescBy) :=
      (List.mergeSort_perm store newsDescBy).symm
    have hslen : (store.mergeSort newsDescBy).length = store.length := by
      simp
    refine ⟨(store.mergeSort newsDescBy).take 100, (store.mergeSort newsDescBy).drop 100,
      ?_, ?_, ?_, ?_, ?_⟩
    · have hdlen : ((store.mergeSort newsDescBy).take 100).length = 100 := by
        rw [List.length_take, hslen]
        omega
      rw [sendAllNewsToClient]
      have h0 : ((findManyRecent store 100).length == 0) = false := by
        show ( ((store.mergeSort newsDescBy).take 100).length == 0) = false
        rw [hdlen]
        rfl
      rw [if_neg (by rw [h0]; simp)]
      show WsMessage.initialNews _ ((store.mergeSort newsDescBy).take 100).length _ _ = _
      rw [hdlen]
      rfl
    · rw [List.length_take, hslen]
      omega
    · exact hsorted.sublist (List.take_sublist 100 _)
    · rw [List.take_append_drop]
      exact hperm
    · have hps : ((store.mergeSort newsDescBy).take 100
          ++ (store.mergeSort newsDescBy).drop 100).Pairwise
          (fun a b => b.publishedAt ≤ a.publishedAt) := by
        rw [List.take_append_drop]
        exact hsorted
      have := (List.pairwise_append.mp hps).2.2
      exact fun a ha b hb => this a ha b hb

/-- Store rows for the snapshot witness, 150 of them with distinct publish
times. -/
def c6Row (i : Nat) : StoredNews :=
  { title := "t", description := "d", source := "s", publishedAt := i,
    url := "u", relatedAssets := [], sentimentScore := 0,
    sentimentLabel := "neutral", relevanceScore := 0 }

/-- A store holding 150 rows. -/
def c6Store : NewsStore := (List.range 150).map c6Row

/-- Witness for C6 at concrete inputs: an open connection attaching over a
150-row store. -/
theorem snapshot_on_attach_witness :
    ((⟨1, true⟩ : Conn).isOpen = true
      ∧ ((handleConnection [] ⟨1, true⟩ (.ok c6Store) 99).2 =
          [((1 : Nat), .connectionAck "Connected to news WebSocket" 99),
           (1, sendAllNewsToClient (.ok c6Store) 99)]
        ∧ isInitialNews (sendAllNewsToClient (.ok c6Store) 99) = true
        ∧ ((handleConnection [] ⟨1, true⟩ (.ok c6Store) 99).2.countP
            (fun d => isInitialNews d.2)) = 1))
    ∧ (100 < c6Store.length
      ∧ ∃ data rest, sendAllNewsToClient (.ok c6Store) 99
          = .initialNews "All existing news from database" 100 (data.map storedToArticle) 99
        ∧ data.length = 100
        ∧ data.Pairwise (fun a b => b.publishedAt ≤ a.publishedAt)
        ∧ c6Store.Perm (data ++ rest)
        ∧ (∀ a ∈ data, ∀ b ∈ rest, b.publishedAt ≤ a.publishedAt)) :=
  ⟨⟨rfl, snapshot_on_attach.1 [] ⟨1, true⟩ c6Store 99 rfl⟩,
   ⟨by simp [c6Store], snapshot_on_attach.2.2 c6Store 99 (by simp [c6Store])⟩⟩

/-- C7.  Broadcast behaviour: an empty article list sends nothing; a
non-empty list sends one `news_update` envelope carrying the count and the
full payload to exactly the open connections, in registry order; a closed
connection in the middle of the registry changes nothing for the others. -/
theorem broadcast_isolation :
    (∀ (wssUp : Bool) (clients : List Conn) (now : Nat),
      broadcastNews wssUp clients [] now = [])
    ∧ (∀ (clients : List Conn) (news : List NewsArticle) (now : Nat),
      news ≠ [] →
      broadcastNews true clients news now =
        (clients.filter (fun c => c.isOpen)).map
          (fun c => (c.id, WsMessage.newsUpdate news.length news now)))
    ∧ (∀ (pre post : List Conn) (c : Conn) (news : List NewsArticle) (now : Nat),
      c.isOpen = false →
      broadcastNews true (pre ++ c :: post) news now
        = broadcastNews true (pre ++ post) news now) := by
  have hne : ∀ (news : List NewsArticle), news ≠ [] →
      (!true || news.length == 0) = false := by
    intro news h
    have : news.length ≠ 0 := fun hc => h (List.length_eq_zero.mp hc)
    simp [this]
  refine ⟨?_, ?_, ?_⟩
  · intro wssUp clients now
    simp [broadcastNews]
  · intro clients news now h
    rw [broadcastNews, hne news h]
    simp only [Bool.false_eq_true, if_false]
    exact broadcast_eq clients _
  · intro pre post c news now hc
    by_cases h : news = []
    · subst h
      simp [broadcastNews]
    · rw [broadcastNews, hne news h, broadcastNews, hne news h]
      simp only [Bool.false_eq_true, if_false]
      rw [broadcast_eq, broadcast_eq, List.filter_append, List.filter_append,
        List.filter_cons, hc]
      simp

/-- Article used by the broadcast witness. -/
def c7Article : NewsArticle :=
  { title := "t", description := "d", source := "s", publishedAt := 1,
    url := "https://example.com/b", relatedAssets := ["BTC"],
    sentiment := { score := 0, label := "neutral", confidence := 0 },
    relevanceScore := 0 }

/-- Witness for C7 at concrete inputs: three registered connections, the
middle one closed. -/
theorem broadcast_isolation_witness :
    ([c7Article] ≠ ([] : List NewsArticle)
      ∧ broadcastNews true [⟨1, true⟩, ⟨2, false⟩, ⟨3, true⟩] [c7Article] 5 =
          (([⟨1, true⟩, ⟨2, false⟩, ⟨3, true⟩] : List Conn).filter (fun c => c.isOpen)).map
            (fun c => (c.id, WsMessage.newsUpdate [c7Article].length [c7Article] 5)))
    ∧ ((⟨2, false⟩ : Conn).isOpen = false
      ∧ broadcastNews true ([⟨1, true⟩] ++ (⟨2, false⟩ : Conn) :: [⟨3, true⟩]) [c7Article] 5
          = broadcastNews true ([⟨1, true⟩] ++ [⟨3, true⟩]) [c7Article] 5) :=
  ⟨⟨by simp, broadcast_isolation.2.1 [⟨1, true⟩, ⟨2, false⟩, ⟨3, true⟩] [c7Article] 5 (by simp)⟩,
   ⟨rfl, broadcast_isolation.2.2 [⟨1, true⟩] [⟨3, true⟩] ⟨2, false⟩ [c7Article] 5 rfl⟩⟩

/-- C10.  A store-read failure during attach yields the error envelope in
place of the snapshot (after the ack), the connection stays registered,
and it still receives subsequent broadcasts. -/
theorem attach_failure_error_envelope :
    ∀ (clients : List Conn) (ws : Conn) (now : Nat), ws.isOpen = true →
      (handleConnection clients ws (.error ()) now).2 =
        [(ws.id, .connectionAck "Connected to news WebSocket" now),
         (ws.id, .errorMsg "Failed to fetch existing news" now)]
      ∧ ws ∈ (handleConnection clients ws (.error ()) now).1
      ∧ (∀ (news : List NewsArticle) (now2 : Nat), news ≠ [] →
          (ws.id, WsMessage.newsUpdate news.length news now2)
            ∈ broadcastNews true (handleConnection clients ws (.error ()) now).1 news now2) := by
  intro clients ws now hopen
  have hmem : ws ∈ (handleConnection clients ws (.error ()) now).1 := by
    show ws ∈ (if clients.contains ws then clients else clients ++ [ws])
    by_cases hc : clients.contains ws = true
    · rw [if_pos hc]
      exact List.mem_of_elem_eq_true hc
    · rw [if_neg hc]
      exact List.mem_append_right clients (List.mem_singleton.mpr rfl)
  refine ⟨?_, hmem, ?_⟩
  · show sendToClient ws _ ++ sendToClient ws _ = _
    rw [sendToClient, sendToClient, if_pos hopen, if_pos hopen]
    rfl
  · intro news now2 h
    have hne : (!true || news.length == 0) = false := by
      have : news.length ≠ 0 := fun hc => h (List.length_eq_zero.mp hc)
      simp [this]
    rw [broadcastNews, hne]
    simp only [Bool.false_eq_true, if_false]
    rw [broadcast_eq]
    exact List.mem_map.mpr ⟨ws, List.mem_filter.mpr ⟨hmem, hopen⟩, rfl⟩

/-- Article used by the attach-failure witness. -/
def c10Article : NewsArticle :=
  { title := "t", description := "d", source := "s", publishedAt := 2,
    url := "https://example.com/c", relatedAssets := ["ETH"],
    sentiment := { score := 0, label := "neutral", confidence := 0 },
    relevanceScore := 0 }

/-- Witness for C10 at concrete inputs. -/
theorem attach_failure_error_envelope_witness :
    ((⟨7, true⟩ : Conn).isOpen = true
      ∧ (handleConnection [] ⟨7, true⟩ (.error ()) 3).2 =
          [((7 : Nat), .connectionAck "Connected to news WebSocket" 3),
           (7, .errorMsg "Failed to fetch existing news" 3)]
      ∧ (⟨7, true⟩ : Conn) ∈ (handleConnection [] ⟨7, true⟩ (.error ()) 3).1)
    ∧ ([c10Article] ≠ ([] : List NewsArticle)
      ∧ ((7 : Nat), WsMessage.newsUpdate [c10Article].length [c10Article] 9)
          ∈ broadcastNews true (handleConnection [] ⟨7, true⟩ (.error ()) 3).1 [c10Article] 9) :=
  ⟨⟨rfl, (attach_failure_error_envelope [] ⟨7, true⟩ 3 rfl).1,
    (attach_failure_error_envelope [] ⟨7, true⟩ 3 rfl).2.1⟩,
   ⟨by simp, (attach_failure_error_envelope [] ⟨7, true⟩ 3 rfl).2.2 [c10Article] 9 (by simp)⟩⟩

/-! Lemmas about the fetch loop and the sentiment batch. -/

theorem fetchLoop_append (keys : ApiKeysConfig) (oracle : ProviderOracle)
    (sentOracle : HFOracle) (sentCache : String → Option SentimentResult)
    (cacheLookup : String → Option (List NewsArticle)) (assetType : AssetType)
    (l1 l2 : List String) :
    fetchLoop keys oracle sentOracle sentCache cacheLookup assetType (l1 ++ l2)
      = ((fetchLoop keys oracle sentOracle sentCache cacheLookup assetType l1).1
          ++ (fetchLoop keys oracle sentOracle sentCache cacheLookup assetType l2).1,
        (fetchLoop keys oracle sentOracle sentCache cacheLookup assetType l1).2
          ++ (fetchLoop keys oracle sentOracle sentCache cacheLookup assetType l2).2) := by
  induction l1 with
  | nil => simp [fetchLoop]
  | cons a rest ih =>
    rw [List.cons_append, fetchLoop, fetchLoop, ih]
    simp [List.append_assoc]

theorem analyzeBatch_eq_map (oracle : HFOracle)
    (cached : String → Option SentimentResult) :
    (texts : List String) → analyzeBatchSentiment oracle cached texts
      = texts.map (fun t => (analyzeSentiment oracle cached t).1)
  | [] => by simp [analyzeBatchSentiment]
  | t :: ts => by
    rw [analyzeBatchSentiment]
    rw [analyzeBatch_eq_map oracle cached ((t :: ts).drop 5)]
    rw [← List.map_append, List.take_append_drop]
termination_by texts => texts.length
decreasing_by simp [List.length_drop]; omega

/-- C9.  Sentiment failure degradation: on a live text with no cached
result, a primary-model fault leads to exactly one backup-model attempt;
when that also faults the result is the neutral sentiment
`{score 0, label neutral, confidence 0.33}`; and the batch API maps every
text to its per-text result (same length, same order), so a per-text
failure never fails the batch. -/
theorem sentiment_failure_degradation :
    (∀ (oracle : HFOracle) (cached : String → Option SentimentResult) (text : String),
      jsTrim text ≠ "" → cached text = none →
      oracle primaryModel (text.take 512) = .error () →
      (analyzeSentiment oracle cached text).2 = [primaryModel, backupModel]
      ∧ (oracle backupModel (text.take 512) = .error () →
          (analyzeSentiment oracle cached text).1 = createNeutralSentiment))
    ∧ createNeutralSentiment.score = 0
    ∧ createNeutralSentiment.label = "neutral"
    ∧ createNeutralSentiment.confidence = 33/100
    ∧ (∀ (oracle : HFOracle) (cached : String → Option SentimentResult)
        (texts : List String),
      (analyzeBatchSentiment oracle cached texts).length = texts.length
      ∧ analyzeBatchSentiment oracle cached texts
          = texts.map (fun t => (analyzeSentiment oracle cached t).1)) := by
  refine ⟨?_, rfl, rfl, rfl, ?_⟩
  · intro oracle cached text htext hcache horacle
    have hstep : analyzeSentiment oracle cached text =
        (analyzeSentimentWithBackup oracle text, [primaryModel, backupModel]) := by
      rw [analyzeSentiment, if_neg htext]
      simp only [hcache, horacle]
    refine ⟨by rw [hstep], ?_⟩
    intro hbackup
    rw [hstep]
    show analyzeSentimentWithBackup oracle text = createNeutralSentiment
    rw [analyzeSentimentWithBackup]
    simp only [hbackup]
  · intro oracle cached texts
    refine ⟨?_, analyzeBatch_eq_map oracle cached texts⟩
    rw [analyzeBatch_eq_map oracle cached texts, List.length_map]

/-- Witness for C9 at concrete inputs: both models faulting on a concrete
text degrade to the neutral sentiment. -/
theorem sentiment_failure_degradation_witness :
    (jsTrim "bad news" ≠ ""
      ∧ ((fun _ : String => none) "bad news" : Option SentimentResult) = none
      ∧ ((fun _ _ => Except.error ()) : HFOracle) primaryModel ("bad news".take 512)
          = .error ()
      ∧ (analyzeSentiment (fun _ _ => Except.error ()) (fun _ => none) "bad news").2
          = [primaryModel, backupModel]
      ∧ (analyzeSentiment (fun _ _ => Except.error ()) (fun _ => none) "bad news").1
          = createNeutralSentiment)
    ∧ (analyzeBatchSentiment (fun _ _ => Except.error ()) (fun _ => none) ["bad news"]).length
        = (["bad news"] : List String).length :=
  ⟨⟨by decide, rfl, rfl,
    (sentiment_failure_degradation.1 (fun _ _ => Except.error ()) (fun _ => none) "bad news"
      (by decide) rfl rfl).1,
    (sentiment_failure_degradation.1 (fun _ _ => Except.error ()) (fun _ => none) "bad news"
      (by decide) rfl rfl).2 rfl⟩,
   (sentiment_failure_degradation.2.2.2.2 (fun _ _ => Except.error ()) (fun _ => none)
      ["bad news"]).1⟩

theorem fetchLoop_append_fst (keys : ApiKeysConfig) (oracle : ProviderOracle)
    (sentOracle : HFOracle) (sentCache : String → Option SentimentResult)
    (cacheLookup : String → Option (List NewsArticle)) (assetType : AssetType)
    (l1 l2 : List String) :
    (fetchLoop keys oracle sentOracle sentCache cacheLookup assetType (l1 ++ l2)).1
      = (fetchLoop keys oracle sentOracle sentCache cacheLookup assetType l1).1
        ++ (fetchLoop keys oracle sentOracle sentCache cacheLookup assetType l2).1 := by
  rw [fetchLoop_append]

/-- C8.  Provider fallback chain: on a cache miss exactly the first
configured provider of the fixed priority order is called (never more than
one); a provider fault for an asset yields the empty list for that asset;
an asset whose fetch came back empty contributes nothing to the batch
without disturbing the other assets; and with no provider credentials at
all the whole ingest returns empty results, not an error. -/
theorem provider_fallback_chain :
    (∀ (keys : ApiKeysConfig) (oracle : ProviderOracle) (sentOracle : HFOracle)
        (sentCache : String → Option SentimentResult)
        (cacheLookup : String → Option (List NewsArticle))
        (asset : String) (assetType : AssetType),
      cacheLookup ("news:" ++ assetTypeName assetType ++ ":" ++ asset) = none →
      (fetchNewsForAsset keys oracle sentOracle sentCache cacheLookup asset assetType).2
        = (if keys.newsApi then [NewsProvider.newsApi]
          else if keys.gnews then [NewsProvider.gnews]
          else if keys.currentsApi then [NewsProvider.currentsApi]
          else [])
      ∧ (fetchNewsForAsset keys oracle sentOracle sentCache cacheLookup
          asset assetType).2.length ≤ 1)
    ∧ (∀ (keys : ApiKeysConfig) (oracle : ProviderOracle) (sentOracle : HFOracle)
        (sentCache : String → Option SentimentResult)
        (cacheLookup : String → Option (List NewsArticle))
        (asset : String) (assetType : AssetType),
      cacheLookup ("news:" ++ assetTypeName assetType ++ ":" ++ asset) = none →
      (∀ p q, oracle p q = .error ()) →
      (fetchNewsForAsset keys oracle sentOracle sentCache cacheLookup asset assetType).1 = [])
    ∧ (∀ (keys : ApiKeysConfig) (oracle : ProviderOracle) (sentOracle : HFOracle)
        (sentCache : String → Option SentimentResult)
        (cacheLookup : String → Option (List NewsArticle)) (assetType : AssetType)
        (assets1 assets2 : List String) (assetBad : String),
      (fetchNewsForAsset keys oracle sentOracle sentCache cacheLookup assetBad assetType).1
        = [] →
      (fetchLoop keys oracle sentOracle sentCache cacheLookup assetType
          (assets1 ++ assetBad :: assets2)).1
        = (fetchLoop keys oracle sentOracle sentCache cacheLookup assetType
            (assets1 ++ assets2)).1)
    ∧ (∀ (oracle : ProviderOracle) (sentOracle : HFOracle)
        (sentCache : String → Option SentimentResult)
        (cacheLookup : String → Option (List NewsArticle))
        (store : NewsStore) (assets : List String) (assetType : AssetType),
      (∀ k, cacheLookup k = none) →
      fetchNewsForAssets ⟨false, false, false⟩ oracle sentOracle sentCache cacheLookup
          store assets assetType
        = (store, [], [])) := by
  refine ⟨?_, ?_, ?_, ?_⟩
  · intro keys oracle sentOracle sentCache cacheLookup asset assetType hcache
    obtain ⟨kn, kg, kc⟩ := keys
    cases kn <;> cases kg <;> cases kc <;>
      simp [fetchNewsForAsset, hcache]
  · intro keys oracle sentOracle sentCache cacheLookup asset assetType hcache hfault
    obtain ⟨kn, kg, kc⟩ := keys
    cases kn <;> cases kg <;> cases kc <;>
      simp [fetchNewsForAsset, hcache, hfault,
        fetchFromNewsApi, fetchFromGNews, fetchFromCurrentsApi]
  · intro keys oracle sentOracle sentCache cacheLookup assetType assets1 assets2 assetBad hbad
    rw [fetchLoop_append_fst, fetchLoop_append_fst]
    congr 1
    simp [fetchLoop, hbad]
  · intro oracle sentOracle sentCache cacheLookup store assets assetType hcache
    have hasset : ∀ asset, fetchNewsForAsset ⟨false, false, false⟩ oracle sentOracle
        sentCache cacheLookup asset assetType = ([], []) := by
      intro asset
      simp [fetchNewsForAsset, hcache]
    have hloop : fetchLoop ⟨false, false, false⟩ oracle sentOracle sentCache cacheLookup
        assetType assets = ([], []) := by
      induction assets with
      | nil => rfl
      | cons a rest ih => simp [fetchLoop, hasset, ih]
    rw [fetchNewsForAssets]
    rw [hloop]
    rfl

/-- Witness for C8 at concrete inputs. -/
theorem provider_fallback_chain_witness :
    (((fun _ : String => (none : Option (List NewsArticle)))
        ("news:" ++ assetTypeName .CRYPTO ++ ":" ++ "BTC") = none)
      ∧ (fetchNewsForAsset ⟨true, true, false⟩ (fun _ _ => Except.ok [])
          (fun _ _ => Except.error ()) (fun _ => none) (fun _ => none) "BTC" .CRYPTO).2
        = [NewsProvider.newsApi])
    ∧ ((∀ p q, ((fun _ _ => Except.error ()) : ProviderOracle) p q = Except.error ())
      ∧ (fetchNewsForAsset ⟨false, true, false⟩ (fun _ _ => Except.error ())
          (fun _ _ => Except.error ()) (fun _ => none) (fun _ => none) "XAU" .METAL).1 = [])
    ∧ ((fetchNewsForAsset ⟨false, false, false⟩ (fun _ _ => Except.ok [])
        (fun _ _ => Except.error ()) (fun _ => none) (fun _ => none) "X" .CRYPTO).1 = []
      ∧ (fetchLoop ⟨false, false, false⟩ (fun _ _ => Except.ok [])
          (fun _ _ => Except.error ()) (fun _ => none) (fun _ => none) .CRYPTO
          (["A"] ++ "X" :: ["B"])).1
        = (fetchLoop ⟨false, false, false⟩ (fun _ _ => Except.ok [])
            (fun _ _ => Except.error ()) (fun _ => none) (fun _ => none) .CRYPTO
            (["A"] ++ ["B"])).1)
    ∧ ((∀ k, ((fun _ => none) : String → Option (List NewsArticle)) k = none)
      ∧ fetchNewsForAssets ⟨false, false, false⟩ (fun _ _ => Except.ok [])
          (fun _ _ => Except.error ()) (fun _ => none) (fun _ => none) [] ["BTC", "ETH"]
          .CRYPTO
        = ([], [], [])) :=
  ⟨⟨rfl, (provider_fallback_chain.1 ⟨true, true, false⟩ (fun _ _ => Except.ok [])
      (fun _ _ => Except.error ()) (fun _ => none) (fun _ => none) "BTC" .CRYPTO rfl).1⟩,
   ⟨fun _ _ => rfl, provider_fallback_chain.2.1 ⟨false, true, false⟩
      (fun _ _ => Except.error ()) (fun _ _ => Except.error ()) (fun _ => none)
      (fun _ => none) "XAU" .METAL rfl (fun _ _ => rfl)⟩,
   ⟨rfl, provider_fallback_chain.2.2.1 ⟨false, false, false⟩ (fun _ _ => Except.ok [])
      (fun _ _ => Except.error ()) (fun _ => none) (fun _ => none) .CRYPTO
      ["A"] ["B"] "X" rfl⟩,
   ⟨fun _ => rfl, provider_fallback_chain.2.2.2 (fun _ _ => Except.ok [])
      (fun _ _ => Except.error ()) (fun _ => none) (fun _ => none) [] ["BTC", "ETH"]
      .CRYPTO (fun _ => rfl)⟩⟩

end FinAgent
